import Mathlib

/-!
# Astral — a verification development

Shallow embedding of the Astral audio layer (`AstralMath.hpp`, `AstralSound.hpp`,
`AstralMusic.hpp`, `AstralInit.hpp`, `AstralListener.hpp`, `AstralUtil.hpp`).

* `float` values are elements of a linearly ordered field `K` (exact arithmetic);
  `std::sqrtf`, `std::acosf` and `M_PI` are passed in, so every definition is
  executable over `ℚ` and the theorems can be read over `ℝ` with `Real.sqrt`,
  `Real.arccos` and `Real.pi`.
* Every `/` of the source is the checked division `fdiv`, which has no result when
  the divisor is zero.
* Native handles (`Mix_Chunk*`, `Mix_Music*`) are natural numbers, `0` being `nullptr`.
* `unsigned int` and `int` are 32 bits wide, with explicit wrap-around.
-/

namespace Astral

/-! ## AstralMath.hpp -/

/-- The struct `math::Vec3`. -/
structure Vec3 (K : Type) where
  x : K
  y : K
  z : K
  deriving DecidableEq

section Math

variable {K : Type} [LinearOrderedField K]

/-- The operator `Vec3 - Vec3`. -/
def Vec3.sub (lhs rhs : Vec3 K) : Vec3 K :=
  ⟨lhs.x - rhs.x, lhs.y - rhs.y, lhs.z - rhs.z⟩

/-- The operator `Vec3 * float`. -/
def Vec3.scale (vector : Vec3 K) (scalar : K) : Vec3 K :=
  ⟨vector.x * scalar, vector.y * scalar, vector.z * scalar⟩

/-- Checked division: the quotient of the source's `/`, absent when the divisor is zero. -/
def fdiv (a b : K) : Option K :=
  if b = 0 then none else some (a / b)

/-- The function `math::Magnitude`. -/
def Magnitude (sqrtf : K → K) (vector : Vec3 K) : K :=
  sqrtf (vector.x * vector.x + vector.y * vector.y + vector.z * vector.z)

/-- The function `math::Normalise`: `vector * (1.0f / Magnitude(vector))`. -/
def Normalise (sqrtf : K → K) (vector : Vec3 K) : Option (Vec3 K) :=
  (fdiv 1 (Magnitude sqrtf vector)).map fun r => vector.scale r

/-- The function `math::DotProduct`. -/
def DotProduct (lhs rhs : Vec3 K) : K :=
  lhs.x * rhs.x + lhs.y * rhs.y + lhs.z * rhs.z

/-- The function `math::CrossProduct`. -/
def CrossProduct (lhs rhs : Vec3 K) : Vec3 K :=
  ⟨lhs.y * rhs.z - lhs.z * rhs.y,
   lhs.z * rhs.x - lhs.x * rhs.z,
   lhs.x * rhs.y - lhs.y * rhs.x⟩

/-- The function `math::AngleBetween`, in degrees. -/
def AngleBetween (sqrtf acosf : K → K) (pi : K) (lhs rhs : Vec3 K) : Option K :=
  (Normalise sqrtf lhs).bind fun normalisedLHS =>
  (Normalise sqrtf rhs).bind fun normalisedRHS =>
  let angleCosine := DotProduct normalisedLHS normalisedRHS
  fdiv (acosf angleCosine * 180) pi

/-- The function `math::MapRange`. -/
def MapRange (rangeA rangeB : K × K) (value : K) : Option K :=
  (fdiv (rangeB.2 - rangeB.1) (rangeA.2 - rangeA.1)).map fun r =>
    (value - rangeA.1) * r + rangeB.1

/-! ## AstralListener.hpp -/

/-- The static members of `Listener`. -/
structure Listener (K : Type) where
  m_position : Vec3 K
  m_lookAtVector : Vec3 K
  m_upVector : Vec3 K

/-- The initial values of the static members of `Listener`. -/
def Listener.initial : Listener K :=
  { m_position := ⟨0, 0, 0⟩, m_lookAtVector := ⟨0, 0, 1⟩, m_upVector := ⟨0, 1, 0⟩ }

/-! ## AstralSound.hpp: the positional part of `Sound::InitiateEffects` -/

/-- The constant `SDLMaxDistance` of `Sound::InitiateEffects`. -/
def SDLMaxDistance : K := 255

/-- Lines 142-145 and 155-156 of `Sound::InitiateEffects`: the distance is capped at
`s_maxDistance` and mapped from `0..s_maxDistance` to `0..SDLMaxDistance`. -/
def mappedDistance (s_maxDistance distance : K) : Option K :=
  let distance := if distance > s_maxDistance then s_maxDistance else distance
  MapRange (0, s_maxDistance) (0, SDLMaxDistance) distance

/-- Lines 147-153 of `Sound::InitiateEffects`: the angle between the look-at vector and
the direction, increased by 180 when the side test is negative. -/
def angleBetween (sqrtf acosf : K → K) (pi : K) (direction lookAtVector upVector : Vec3 K) :
    Option K :=
  (AngleBetween sqrtf acosf pi lookAtVector direction).map fun angleBetween =>
    let directionSign := DotProduct (CrossProduct direction lookAtVector) upVector
    if directionSign < 0 then angleBetween + 180 else angleBetween

/-- Lines 137-158 of `Sound::InitiateEffects`: the angle and the distance handed to
`Mix_SetPosition`, before their conversion to `Sint16` and `Uint8`. -/
def InitiateEffects (sqrtf acosf : K → K) (pi : K) (listener : Listener K)
    (s_maxDistance : K) (m_position : Vec3 K) : Option (K × K) :=
  let direction := m_position.sub listener.m_position
  (Normalise sqrtf listener.m_lookAtVector).bind fun lookAtVector =>
  let distance := Magnitude sqrtf direction
  (angleBetween sqrtf acosf pi direction lookAtVector listener.m_upVector).bind fun angle =>
  (mappedDistance s_maxDistance distance).bind fun mapped =>
  some (angle, mapped)

end Math

/-! ## Machine integers -/

/-- Conversion of an `int` to `unsigned int` (32 bits, modulo `2^32`). -/
def toUnsigned (i : Int) : Nat :=
  (i % 4294967296).toNat

/-- Subtraction of `unsigned int` values, wrapping modulo `2^32`. -/
def usub (a b : Nat) : Nat :=
  (a % 4294967296 + (4294967296 - b % 4294967296)) % 4294967296

/-- Conversion of an `unsigned int` to `int` (two's complement, 32 bits). -/
def toSigned (u : Nat) : Int :=
  if u % 4294967296 < 2147483648 then ((u % 4294967296 : Nat) : Int)
  else ((u % 4294967296 : Nat) : Int) - 4294967296

/-- The conversion `static_cast<int>` of a `float`: truncation toward zero. -/
def truncToInt {K : Type} [LinearOrderedField K] [FloorRing K] (x : K) : Int :=
  if 0 ≤ x then Int.floor x else Int.ceil x

/-- The constant `MIX_MAX_VOLUME` of SDL_mixer. -/
def MIX_MAX_VOLUME : Nat := 128

/-- The constant `MIX_CHANNEL_POST` of SDL_mixer. -/
def MIX_CHANNEL_POST : Int := -2

/-! ## The mixer -/

/-- The state-changing calls into SDL_mixer made by `Sound`, `Music` and `Initialise`,
with their arguments. -/
inductive MixCall where
  | Mix_FreeChunk (chunk : Nat)
  | Mix_PlayChannel (channel : Int) (chunk : Nat) (loops : Int)
  | Mix_FadeInChannel (channel : Int) (chunk : Nat) (loops : Int) (ms : Int)
  | Mix_Pause (channel : Int)
  | Mix_Resume (channel : Int)
  | Mix_HaltChannel (channel : Int)
  | Mix_FreeMusic (music : Nat)
  | Mix_VolumeMusic (volume : Int)
  | Mix_PlayMusic (music : Nat) (loops : Int)
  | Mix_FadeInMusic (music : Nat) (loops : Int) (ms : Int)
  | Mix_HaltMusic
  | Mix_FadeOutMusic (ms : Int)
  | Mix_PauseMusic
  | Mix_ResumeMusic
  | Mix_RewindMusic
  | Mix_AllocateChannels (numchans : Int)
  | Mix_SetReverseStereo (channel : Int) (flip : Int)
  deriving DecidableEq

/-- The channel argument of a call that addresses a channel. -/
def MixCall.channel? : MixCall → Option Int
  | .Mix_PlayChannel channel _ _ => some channel
  | .Mix_FadeInChannel channel _ _ _ => some channel
  | .Mix_Pause channel => some channel
  | .Mix_Resume channel => some channel
  | .Mix_HaltChannel channel => some channel
  | .Mix_SetReverseStereo channel _ => some channel
  | _ => none

/-- The `loops` argument of a call that starts playback. -/
def MixCall.loops? : MixCall → Option Int
  | .Mix_PlayChannel _ _ loops => some loops
  | .Mix_FadeInChannel _ _ loops _ => some loops
  | .Mix_PlayMusic _ loops => some loops
  | .Mix_FadeInMusic _ loops _ => some loops
  | _ => none

/-- The mixer as seen from this code: an arbitrary state `σ`, the values its queries
return in a state, the channel returned by a call that starts a chunk, and the effect
of a call on the state. -/
structure Mixer (σ : Type) where
  Mix_Playing : σ → Int → Int
  Mix_Paused : σ → Int → Int
  Mix_PlayingMusic : σ → Int
  Mix_PausedMusic : σ → Int
  playResult : σ → MixCall → Int
  react : MixCall → σ → σ

/-! ## AstralSound.hpp -/

/-- The non-static data members of `Sound`; the handle `0` is `nullptr`. -/
structure Sound (K : Type) where
  m_chunkHandle : Nat
  m_channel : Int
  m_position : Vec3 K
  m_volume : K

/-- The constant `Sound::s_InvalidChannel`. -/
def Sound.s_InvalidChannel : Int := -1

/-- The music data members; the handle `0` is `nullptr`. -/
structure Music (K : Type) where
  m_musicHandle : Nat
  m_volume : K

/-- The program state: the `Sound` and `Music` objects ever created (`none` once the
destructor has run), the static `Music::s_currentlyPlayingMusic`, the mixer state and
the calls issued so far. -/
structure World (K σ : Type) where
  sounds : List (Option (Sound K))
  musics : List (Option (Music K))
  s_currentlyPlayingMusic : Nat
  mixer : σ
  calls : List MixCall

section Objects

variable {K σ : Type}

/-- Issue a call: the mixer reacts and the call is recorded. -/
def World.issue (mx : Mixer σ) (c : MixCall) (w : World K σ) : World K σ :=
  { w with mixer := mx.react c w.mixer, calls := w.calls ++ [c] }

/-- The live object at an index of an object store. -/
def getAt {α : Type} (objs : List (Option α)) (i : Nat) : Option α :=
  (objs.get? i).join

/-- Update the live object at an index of an object store. -/
def modifyAt {α : Type} (objs : List (Option α)) (i : Nat) (f : α → α) : List (Option α) :=
  match getAt objs i with
  | some o => objs.set i (some (f o))
  | none => objs

/-- The statement `this->field = std::exchange(other.field, reset)` on two objects
of a store, which may be the same object. -/
def exchangeField {α β : Type} (get : α → β) (put : β → α → α) (reset : β)
    (objs : List (Option α)) (self other : Nat) : List (Option α) :=
  match getAt objs other with
  | some o => modifyAt (modifyAt objs other (put reset)) self (put (get o))
  | none => objs

/-! ### Member functions of `Sound` -/

/-- The constructor `Sound(filepath)`, given the handle returned by `Mix_LoadWAV`:
it throws when the handle is `nullptr`. -/
def Sound.new [Zero K] [One K] (loaded : Nat) : Option (Sound K) :=
  if loaded = 0 then none
  else some { m_chunkHandle := loaded, m_channel := -1, m_position := ⟨0, 0, 0⟩, m_volume := 1 }

/-- The function `Sound::Destroy`. -/
def Sound.Destroy (mx : Mixer σ) (self : Sound K) (w : World K σ) : Sound K × World K σ :=
  if self.m_chunkHandle ≠ 0 then
    ({ self with m_chunkHandle := 0 }, w.issue mx (.Mix_FreeChunk self.m_chunkHandle))
  else (self, w)

/-- The function `Sound::Play(times, fadeInMilliseconds, fadeOutMilliseconds)`, up to
the call that starts the chunk and the assignment of `m_channel`; the calls of
`InitiateEffects` on that channel are not recorded (their arguments are those of
`Astral.InitiateEffects`). -/
def Sound.Play (mx : Mixer σ) (self : Sound K) (times fadeInMilliseconds : Nat)
    (w : World K σ) : Sound K × World K σ :=
  let call :=
    if fadeInMilliseconds = 0 then
      MixCall.Mix_PlayChannel (-1) self.m_chunkHandle (toSigned (usub times 1))
    else
      MixCall.Mix_FadeInChannel (-1) self.m_chunkHandle (toSigned (usub times 1))
        (toSigned fadeInMilliseconds)
  ({ self with m_channel := mx.playResult w.mixer call }, w.issue mx call)

/-- The overload `Sound::Play(LoopForever, ...)`, which is `Play(-1, ...)`. -/
def Sound.PlayLoopForever (mx : Mixer σ) (self : Sound K) (fadeInMilliseconds : Nat)
    (w : World K σ) : Sound K × World K σ :=
  Sound.Play mx self (toUnsigned (-1)) fadeInMilliseconds w

/-- The function `Sound::Pause`. -/
def Sound.Pause (mx : Mixer σ) (self : Sound K) (w : World K σ) : World K σ :=
  w.issue mx (.Mix_Pause self.m_channel)

/-- The function `Sound::Resume`. -/
def Sound.Resume (mx : Mixer σ) (self : Sound K) (w : World K σ) : World K σ :=
  w.issue mx (.Mix_Resume self.m_channel)

/-- The function `Sound::IsPlaying`: the query `Mix_Playing(m_channel) != 0`. -/
def Sound.IsPlaying (mx : Mixer σ) (self : Sound K) (w : World K σ) : Bool :=
  mx.Mix_Playing w.mixer self.m_channel != 0

/-- The function `Sound::IsPaused`: the query `Mix_Paused(m_channel) != 0`. -/
def Sound.IsPaused (mx : Mixer σ) (self : Sound K) (w : World K σ) : Bool :=
  mx.Mix_Paused w.mixer self.m_channel != 0

/-- The function `Sound::Stop`. -/
def Sound.Stop (mx : Mixer σ) (self : Sound K) (w : World K σ) : Sound K × World K σ :=
  if self.m_channel ≠ Sound.s_InvalidChannel then
    ({ self with m_channel := Sound.s_InvalidChannel }, w.issue mx (.Mix_HaltChannel self.m_channel))
  else (self, w)

/-! ### Member functions of `Music` -/

/-- The constructor `Music(filepath)`, given the handle returned by `Mix_LoadMUS`:
it throws when the handle is `nullptr`. -/
def Music.new [One K] (loaded : Nat) : Option (Music K) :=
  if loaded = 0 then none else some { m_musicHandle := loaded, m_volume := 1 }

/-- The function `Music::IsMusicPlaying`. -/
def Music.IsMusicPlaying (mx : Mixer σ) (w : World K σ) : Bool :=
  mx.Mix_PlayingMusic w.mixer == 1

/-- The function `Music::IsMusicPaused`. -/
def Music.IsMusicPaused (mx : Mixer σ) (w : World K σ) : Bool :=
  mx.Mix_PausedMusic w.mixer == 1

/-- The function `Music::StopAllMusic`. -/
def Music.StopAllMusic (mx : Mixer σ) (fadeOutMilliseconds : Nat) (w : World K σ) :
    World K σ :=
  let w :=
    if fadeOutMilliseconds = 0 then w.issue mx .Mix_HaltMusic
    else w.issue mx (.Mix_FadeOutMusic (toSigned fadeOutMilliseconds))
  { w with s_currentlyPlayingMusic := 0 }

/-- The function `Music::Play(playCount, fadeInMilliseconds)`. -/
def Music.Play [LinearOrderedField K] [FloorRing K] (mx : Mixer σ) (self : Music K)
    (playCount fadeInMilliseconds : Nat) (w : World K σ) : World K σ :=
  let w :=
    if fadeInMilliseconds = 0 then
      (w.issue mx (.Mix_VolumeMusic (truncToInt (self.m_volume * (MIX_MAX_VOLUME : K))))).issue mx
        (.Mix_PlayMusic self.m_musicHandle (toSigned (usub playCount 1)))
    else
      w.issue mx (.Mix_FadeInMusic self.m_musicHandle (toSigned (usub playCount 1))
        (toSigned fadeInMilliseconds))
  { w with s_currentlyPlayingMusic := self.m_musicHandle }

/-- The overload `Music::Play(LoopForever, fadeInMilliseconds)`, which is `Play(-1, ...)`. -/
def Music.PlayLoopForever [LinearOrderedField K] [FloorRing K] (mx : Mixer σ) (self : Music K)
    (fadeInMilliseconds : Nat) (w : World K σ) : World K σ :=
  Music.Play mx self (toUnsigned (-1)) fadeInMilliseconds w

/-- The function `Music::IsPlaying`. -/
def Music.IsPlaying (mx : Mixer σ) (self : Music K) (w : World K σ) : Bool :=
  Music.IsMusicPlaying mx w && w.s_currentlyPlayingMusic == self.m_musicHandle

/-- The function `Music::IsPaused`. -/
def Music.IsPaused (mx : Mixer σ) (self : Music K) (w : World K σ) : Bool :=
  Music.IsMusicPaused mx w && w.s_currentlyPlayingMusic == self.m_musicHandle

/-- The function `Music::Pause`. -/
def Music.Pause (mx : Mixer σ) (self : Music K) (w : World K σ) : World K σ :=
  if Music.IsPlaying mx self w then w.issue mx .Mix_PauseMusic else w

/-- The function `Music::Resume`. -/
def Music.Resume (mx : Mixer σ) (self : Music K) (w : World K σ) : World K σ :=
  if Music.IsPaused mx self w then w.issue mx .Mix_ResumeMusic else w

/-- The function `Music::Stop`. -/
def Music.Stop (mx : Mixer σ) (self : Music K) (fadeOutMilliseconds : Nat) (w : World K σ) :
    World K σ :=
  if Music.IsPlaying mx self w || Music.IsPaused mx self w then
    Music.StopAllMusic mx fadeOutMilliseconds w
  else w

/-- The function `Music::Destroy`: `Stop()`, then the handle is freed when it is not
`nullptr`. -/
def Music.Destroy (mx : Mixer σ) (self : Music K) (w : World K σ) : Music K × World K σ :=
  let w := Music.Stop mx self 0 w
  if self.m_musicHandle ≠ 0 then
    ({ self with m_musicHandle := 0 }, w.issue mx (.Mix_FreeMusic self.m_musicHandle))
  else (self, w)

/-! ### Construction, move and destruction of the objects of a program -/

/-- The initial program state: no object, `s_currentlyPlayingMusic` is `nullptr`. -/
def World.initial (mixer : σ) : World K σ :=
  { sounds := [], musics := [], s_currentlyPlayingMusic := 0, mixer := mixer, calls := [] }

/-- The guard `if (m_chunkHandle != nullptr) Destroy();` of the move operations of
`Sound`, on the object at an index. -/
def World.guardedDestroySound (mx : Mixer σ) (self : Nat) (w : World K σ) : World K σ :=
  match getAt w.sounds self with
  | some s =>
    if s.m_chunkHandle ≠ 0 then
      let r := Sound.Destroy mx s w
      { r.2 with sounds := r.2.sounds.set self (some r.1) }
    else w
  | none => w

/-- The guard `if (m_musicHandle != nullptr) Destroy();` of the move operations of
`Music`, on the object at an index. -/
def World.guardedDestroyMusic (mx : Mixer σ) (self : Nat) (w : World K σ) : World K σ :=
  match getAt w.musics self with
  | some m =>
    if m.m_musicHandle ≠ 0 then
      let r := Music.Destroy mx m w
      { r.2 with musics := r.2.musics.set self (some r.1) }
    else w
  | none => w

/-- The constructor `Sound(filepath)` with the handle returned by the loader: a new
object, or none when the constructor throws. -/
def World.newSound [Zero K] [One K] (loaded : Nat) (w : World K σ) : World K σ :=
  match (Sound.new loaded : Option (Sound K)) with
  | some s => { w with sounds := w.sounds ++ [some s] }
  | none => w

/-- The move constructor `Sound(Sound&& other)`: the new object copies channel,
position and volume, starts with the default handle `nullptr`, and takes the handle
of `other`. -/
def World.moveSound (mx : Mixer σ) (other : Nat) (w : World K σ) : World K σ :=
  match getAt w.sounds other with
  | some o =>
    let self := w.sounds.length
    let w := { w with sounds := w.sounds ++ [some { m_chunkHandle := 0, m_channel := o.m_channel,
                                                    m_position := o.m_position,
                                                    m_volume := o.m_volume }] }
    let w := World.guardedDestroySound mx self w
    let objs := exchangeField Sound.m_chunkHandle
      (fun h s => { s with m_chunkHandle := h }) 0 w.sounds self other
    { w with sounds := objs }
  | none => w

/-- The move assignment `Sound::operator=(Sound&& other)` on two live objects, which
may be the same object. -/
def World.assignSound [Zero K] [One K] (mx : Mixer σ) (self other : Nat) (w : World K σ) :
    World K σ :=
  match getAt w.sounds self, getAt w.sounds other with
  | some _, some _ =>
    let w := World.guardedDestroySound mx self w
    let objs := exchangeField Sound.m_chunkHandle
      (fun h s => { s with m_chunkHandle := h }) 0 w.sounds self other
    let objs := exchangeField Sound.m_channel
      (fun c s => { s with m_channel := c }) Sound.s_InvalidChannel objs self other
    let objs := exchangeField Sound.m_position
      (fun p s => { s with m_position := p }) ⟨0, 0, 0⟩ objs self other
    let objs := exchangeField Sound.m_volume
      (fun v s => { s with m_volume := v }) 1 objs self other
    { w with sounds := objs }
  | _, _ => w

/-- The destructor `~Sound()`: `Destroy()`, after which the object is gone. -/
def World.deleteSound (mx : Mixer σ) (self : Nat) (w : World K σ) : World K σ :=
  match getAt w.sounds self with
  | some s =>
    let r := Sound.Destroy mx s w
    { r.2 with sounds := r.2.sounds.set self none }
  | none => w

/-- The constructor `Music(filepath)` with the handle returned by the loader: a new
object, or none when the constructor throws. -/
def World.newMusic [One K] (loaded : Nat) (w : World K σ) : World K σ :=
  match (Music.new loaded : Option (Music K)) with
  | some m => { w with musics := w.musics ++ [some m] }
  | none => w

/-- The move constructor `Music(Music&& other)`. -/
def World.moveMusic (mx : Mixer σ) (other : Nat) (w : World K σ) : World K σ :=
  match getAt w.musics other with
  | some o =>
    let self := w.musics.length
    let w := { w with musics := w.musics ++ [some { m_musicHandle := 0, m_volume := o.m_volume }] }
    let w := World.guardedDestroyMusic mx self w
    let objs := exchangeField Music.m_musicHandle
      (fun h m => { m with m_musicHandle := h }) 0 w.musics self other
    { w with musics := objs }
  | none => w

/-- The move assignment `Music::operator=(Music&& other)` on two live objects, which
may be the same object. -/
def World.assignMusic [One K] (mx : Mixer σ) (self other : Nat) (w : World K σ) : World K σ :=
  match getAt w.musics self, getAt w.musics other with
  | some _, some _ =>
    let w := World.guardedDestroyMusic mx self w
    let objs := exchangeField Music.m_musicHandle
      (fun h m => { m with m_musicHandle := h }) 0 w.musics self other
    let objs := exchangeField Music.m_volume
      (fun v m => { m with m_volume := v }) 1 objs self other
    { w with musics := objs }
  | _, _ => w

/-- The destructor `~Music()`: `Destroy()`, after which the object is gone. -/
def World.deleteMusic (mx : Mixer σ) (self : Nat) (w : World K σ) : World K σ :=
  match getAt w.musics self with
  | some m =>
    let r := Music.Destroy mx m w
    { r.2 with musics := r.2.musics.set self none }
  | none => w

/-- One step of a program that constructs, moves and destroys `Sound` and `Music`
objects; objects are named by their index of creation. A step that names an object
that was never created or is already destroyed is not a step of a well-formed
program and has no effect. -/
inductive Op where
  | newSound (loaded : Nat)
  | moveSound (other : Nat)
  | assignSound (self other : Nat)
  | deleteSound (self : Nat)
  | newMusic (loaded : Nat)
  | moveMusic (other : Nat)
  | assignMusic (self other : Nat)
  | deleteMusic (self : Nat)
  deriving DecidableEq

/-- The effect of one step. -/
def World.step [Zero K] [One K] (mx : Mixer σ) (w : World K σ) : Op → World K σ
  | .newSound loaded => w.newSound loaded
  | .moveSound other => w.moveSound mx other
  | .assignSound self other => w.assignSound mx self other
  | .deleteSound self => w.deleteSound mx self
  | .newMusic loaded => w.newMusic loaded
  | .moveMusic other => w.moveMusic mx other
  | .assignMusic self other => w.assignMusic mx self other
  | .deleteMusic self => w.deleteMusic mx self

/-- The effect of a sequence of steps. -/
def World.run [Zero K] [One K] (mx : Mixer σ) (w : World K σ) (ops : List Op) : World K σ :=
  ops.foldl (World.step mx) w

/-- The handles of the objects of a store, `none` for a destroyed object. -/
def handles {α : Type} (handle : α → Nat) (objs : List (Option α)) : List (Option Nat) :=
  objs.map (Option.map handle)

/-- The handle of the live object at an index of a store. -/
def handleAt {α : Type} (handle : α → Nat) (objs : List (Option α)) (i : Nat) : Option Nat :=
  (getAt objs i).map handle

/-- How many live objects of a store hold the handle `h`. -/
def held {α : Type} (handle : α → Nat) (h : Nat) (objs : List (Option α)) : Nat :=
  (handles handle objs).count (some h)

/-- How many times the chunk handle `h` has been passed to `Mix_FreeChunk`. -/
def World.freedChunk (w : World K σ) (h : Nat) : Nat :=
  w.calls.count (.Mix_FreeChunk h)

/-- How many times the music handle `h` has been passed to `Mix_FreeMusic`. -/
def World.freedMusic (w : World K σ) (h : Nat) : Nat :=
  w.calls.count (.Mix_FreeMusic h)

/-- The live objects that hold the chunk handle `h`, plus the times `h` was freed. -/
def World.chunkBalance (w : World K σ) (h : Nat) : Nat :=
  held Sound.m_chunkHandle h w.sounds + w.freedChunk h

/-- The live objects that hold the music handle `h`, plus the times `h` was freed. -/
def World.musicBalance (w : World K σ) (h : Nat) : Nat :=
  held Music.m_musicHandle h w.musics + w.freedMusic h

/-- Two program states agree on the balance of every non-null handle and on the
number of times `nullptr` was freed. -/
def World.sameBalance (w v : World K σ) : Prop :=
  (∀ h, h ≠ 0 → v.chunkBalance h = w.chunkBalance h) ∧
  (∀ h, h ≠ 0 → v.musicBalance h = w.musicBalance h) ∧
  v.freedChunk 0 = w.freedChunk 0 ∧ v.freedMusic 0 = w.freedMusic 0

/-- Every object of the program has been destroyed. -/
def World.allDestroyed (w : World K σ) : Prop :=
  (∀ o ∈ w.sounds, o.isNone = true) ∧ (∀ o ∈ w.musics, o.isNone = true)

/-- A program over three sounds and two musics: it loads, move-assigns between two
objects, move-assigns an object to itself, move-constructs, and destroys every
object. -/
def Op.sampleProgram : List Op :=
  [.newSound 1, .newSound 2, .assignSound 0 1, .assignSound 0 0, .moveSound 0,
   .newMusic 1, .moveMusic 0, .assignMusic 1 1,
   .deleteSound 0, .deleteSound 1, .deleteSound 2, .deleteMusic 0, .deleteMusic 1]

end Objects

/-! ## AstralUtil.hpp and AstralInit.hpp -/

/-- The enum `Endianness`. -/
inductive Endianness where
  | Little
  | Big
  | System
  deriving DecidableEq

/-- The enum `RequiredFileTypes`. -/
inductive RequiredFileTypes where
  | FLAC
  | MOD
  | MP3
  | OGG
  | MIDI
  | OPUS
  deriving DecidableEq

/-- The underlying value of a `RequiredFileTypes`: the `MIX_INIT_*` bit of SDL_mixer. -/
def RequiredFileTypes.toFlag : RequiredFileTypes → Nat
  | .FLAC => 1
  | .MOD => 2
  | .MP3 => 8
  | .OGG => 16
  | .MIDI => 32
  | .OPUS => 64

/-- The SDL audio formats returned by `GetFormat`, by the name of their constant. -/
inductive AudioFormat where
  | AUDIO_S8
  | AUDIO_S16LSB
  | AUDIO_S16MSB
  | AUDIO_S16SYS
  | AUDIO_S32LSB
  | AUDIO_S32MSB
  | AUDIO_S32SYS
  | AUDIO_U8
  | AUDIO_U16LSB
  | AUDIO_U16MSB
  | AUDIO_U16SYS
  deriving DecidableEq

/-- The struct `InitialiseData::FormatInfo`, with its default member values. -/
structure FormatInfo where
  isSigned : Bool := true
  bitCount : Nat := 16
  endianness : Endianness := Endianness.System

/-- The struct `InitialiseData`, with its default member values. -/
structure InitialiseData (K : Type) [LinearOrderedField K] where
  requiredFileTypes : List RequiredFileTypes := []
  formatInfo : FormatInfo := {}
  frequency : Nat := 44100
  chunkSize : Nat := 4096
  allocatedChannels : Nat := 16
  maxDistance : K := 100
  reverseStereo : Bool := false

/-- The function `GetFormat`; an `Error` is the message it is thrown with. -/
def GetFormat (formatInfo : FormatInfo) : Except String AudioFormat :=
  if formatInfo.isSigned then
    if formatInfo.bitCount = 8 then .ok .AUDIO_S8
    else if formatInfo.bitCount = 16 then
      match formatInfo.endianness with
      | .Little => .ok .AUDIO_S16LSB
      | .Big => .ok .AUDIO_S16MSB
      | .System => .ok .AUDIO_S16SYS
    else if formatInfo.bitCount = 32 then
      match formatInfo.endianness with
      | .Little => .ok .AUDIO_S32LSB
      | .Big => .ok .AUDIO_S32MSB
      | .System => .ok .AUDIO_S32SYS
    else .error "Invalid format bit count."
  else
    if formatInfo.bitCount = 8 then .ok .AUDIO_U8
    else if formatInfo.bitCount = 16 then
      match formatInfo.endianness with
      | .Little => .ok .AUDIO_U16LSB
      | .Big => .ok .AUDIO_U16MSB
      | .System => .ok .AUDIO_U16SYS
    else .error "Invalid format bit count."

/-- The native library as `Initialise` sees it: the value each call returns for its
arguments, and the error texts of `SDL_GetError` and `Mix_GetError`. Flag sets are
natural numbers read as bit sets. -/
structure NativeLibrary where
  SDL_WasInit : Nat → Nat
  SDL_InitSubSystem : Nat → Int
  Mix_Init : Nat → Nat
  Mix_OpenAudio : Int → AudioFormat → Int → Int → Int
  SDL_GetError : String
  Mix_GetError : String

/-- The constant `SDL_INIT_AUDIO` of SDL. -/
def SDL_INIT_AUDIO : Nat := 16

/-- The constant `MIX_DEFAULT_CHANNELS` of SDL_mixer. -/
def MIX_DEFAULT_CHANNELS : Int := 2

/-- What a successful `Initialise` leaves behind: the value of `Sound::s_maxDistance`
and the calls issued after the audio device was opened. -/
structure Initialised (K : Type) where
  s_maxDistance : K
  calls : List MixCall

/-- The flags computed by the loop of `Initialise`: the bitwise OR of the entries of
`requiredFileTypes`, starting from `0`. -/
def requiredFlags (requiredFileTypes : List RequiredFileTypes) : Nat :=
  requiredFileTypes.foldl (fun flags requiredFileType => flags ||| requiredFileType.toFlag) 0

/-- The function `Initialise(const InitialiseData&)`; an `Error` is the message it is
thrown with. -/
def Initialise {K : Type} [LinearOrderedField K] (lib : NativeLibrary)
    (initialiseData : InitialiseData K) : Except String (Initialised K) :=
  if lib.SDL_WasInit SDL_INIT_AUDIO = 0 ∧ lib.SDL_InitSubSystem SDL_INIT_AUDIO ≠ 0 then
    .error ("Failed to initialise SDL's audio subsystem.\nError: " ++ lib.SDL_GetError)
  else
    let flags := requiredFlags initialiseData.requiredFileTypes
    if lib.Mix_Init flags ≠ flags then
      .error ("Failed to initialise SDL_Mixer.\nError: " ++ lib.Mix_GetError)
    else
      match GetFormat initialiseData.formatInfo with
      | .error message => .error message
      | .ok format =>
        if lib.Mix_OpenAudio (toSigned initialiseData.frequency) format MIX_DEFAULT_CHANNELS
            (toSigned initialiseData.chunkSize) = -1 then
          .error ("Failed to open audio: " ++ lib.Mix_GetError)
        else
          .ok { s_maxDistance := initialiseData.maxDistance
                calls := [.Mix_AllocateChannels (toSigned initialiseData.allocatedChannels)] ++
                  (if initialiseData.reverseStereo then [.Mix_SetReverseStereo MIX_CHANNEL_POST 1]
                   else []) }

/-- A native library in which every call of `Initialise` succeeds; the error texts are
those left behind by an earlier, unrelated failure. -/
def NativeLibrary.succeeding : NativeLibrary :=
  { SDL_WasInit := fun _ => 0
    SDL_InitSubSystem := fun _ => 0
    Mix_Init := fun flags => flags
    Mix_OpenAudio := fun _ _ _ _ => 0
    SDL_GetError := "No such audio device"
    Mix_GetError := "Unrecognized audio format" }

/-- A native library in which the MP3 loader is already initialised: `Mix_Init`
returns the requested flags together with `MIX_INIT_MP3`, and every call succeeds. -/
def NativeLibrary.withMP3Loaded : NativeLibrary :=
  { NativeLibrary.succeeding with Mix_Init := fun flags => flags ||| 8 }

/-- A mixer without state that answers every query with `1`. -/
def Mixer.alwaysOne : Mixer Unit :=
  { Mix_Playing := fun _ _ => 1
    Mix_Paused := fun _ _ => 1
    Mix_PlayingMusic := fun _ => 1
    Mix_PausedMusic := fun _ => 1
    playResult := fun _ _ => 0
    react := fun _ s => s }

/-- A message contains a text: the text is a contiguous part of the message. -/
def containsText (message text : String) : Prop :=
  List.IsInfix text.data message.data

instance (message text : String) : Decidable (containsText message text) :=
  inferInstanceAs (Decidable (List.IsInfix text.data message.data))

/-! ## Theorems: vector helpers and the positional mapping -/

section MathLemmas

variable {K : Type} [LinearOrderedField K]

theorem fdiv_of_ne_zero (a : K) {b : K} (hb : b ≠ 0) : fdiv a b = some (a / b) := by
  simp [fdiv, hb]

theorem fdiv_zero (a : K) : fdiv a (0 : K) = none := by
  simp [fdiv]

theorem mappedDistance_eq (M d : K) (hM : 0 < M) :
    mappedDistance M d = some (255 * min d M / M) := by
  unfold mappedDistance MapRange SDLMaxDistance
  simp only [sub_zero, add_zero, fdiv_of_ne_zero _ hM.ne', Option.map_some']
  congr 1
  by_cases h : d > M
  · rw [if_pos h, min_eq_right h.le]; ring
  · rw [if_neg h, min_eq_left (not_lt.mp h)]; ring

/-- C10: `CrossProduct` is the standard 3D cross product with respect to `DotProduct`.
`DotProduct(a, b)` is the sum of the products of the components and
`CrossProduct(a, b)` has the components `a.y b.z - a.z b.y`, `a.z b.x - a.x b.z`,
`a.x b.y - a.y b.x`; it is right-handed on the unit vectors (`x × y = z`, `y × z = x`,
`z × x = y`) and has the standard length (`|a × b|² = |a|² |b|² - (a · b)²`).
`CrossProduct(a, b)` is orthogonal to `a` and to `b`, `CrossProduct(b, a)` is its
component-wise negation, and the side test
`DotProduct(CrossProduct(direction, lookAt), up)` is negated when `direction` and
`lookAt` are swapped; with the default look-at and up vectors and the direction
`(1, 0, 1)` it is `-1`, and `1` after the swap. -/
theorem C10_crossProduct_standard (a b up : Vec3 K) :
    DotProduct (CrossProduct a b) a = 0 ∧
    DotProduct (CrossProduct a b) b = 0 ∧
    CrossProduct b a =
      ⟨-(CrossProduct a b).x, -(CrossProduct a b).y, -(CrossProduct a b).z⟩ ∧
    DotProduct (CrossProduct b a) up = -DotProduct (CrossProduct a b) up ∧
    DotProduct a b = a.x * b.x + a.y * b.y + a.z * b.z ∧
    CrossProduct a b =
      ⟨a.y * b.z - a.z * b.y, a.z * b.x - a.x * b.z, a.x * b.y - a.y * b.x⟩ ∧
    CrossProduct (⟨1, 0, 0⟩ : Vec3 K) ⟨0, 1, 0⟩ = ⟨0, 0, 1⟩ ∧
    CrossProduct (⟨0, 1, 0⟩ : Vec3 K) ⟨0, 0, 1⟩ = ⟨1, 0, 0⟩ ∧
    CrossProduct (⟨0, 0, 1⟩ : Vec3 K) ⟨1, 0, 0⟩ = ⟨0, 1, 0⟩ ∧
    DotProduct (CrossProduct a b) (CrossProduct a b)
      = DotProduct a a * DotProduct b b - DotProduct a b * DotProduct a b ∧
    DotProduct (CrossProduct (⟨1, 0, 1⟩ : Vec3 K) ⟨0, 0, 1⟩) ⟨0, 1, 0⟩ = -1 ∧
    DotProduct (CrossProduct (⟨0, 0, 1⟩ : Vec3 K) ⟨1, 0, 1⟩) ⟨0, 1, 0⟩ = 1 := by
  refine ⟨?_, ?_, ?_, ?_, rfl, rfl, ?_, ?_, ?_, ?_, ?_, ?_⟩
  · simp only [DotProduct, CrossProduct]; ring
  · simp only [DotProduct, CrossProduct]; ring
  · simp only [CrossProduct, neg_sub, Vec3.mk.injEq]
    refine ⟨?_, ?_, ?_⟩ <;> ring
  · simp only [DotProduct, CrossProduct]; ring
  · simp [CrossProduct]
  · simp [CrossProduct]
  · simp [CrossProduct]
  · simp only [DotProduct, CrossProduct]; ring
  · simp [DotProduct, CrossProduct]
  · simp [DotProduct, CrossProduct]

end MathLemmas

/-! ### The positional mapping over the reals -/

theorem magnitude_unit_z : Magnitude Real.sqrt (⟨0, 0, 1⟩ : Vec3 ℝ) = 1 := by
  simp [Magnitude]

theorem normalise_unit_z : Normalise Real.sqrt (⟨0, 0, 1⟩ : Vec3 ℝ) = some ⟨0, 0, 1⟩ := by
  simp [Normalise, magnitude_unit_z, fdiv, Vec3.scale]

theorem arccos_inv_sqrt_two : Real.arccos (1 / Real.sqrt 2) = Real.pi / 4 := by
  have h : (1 : ℝ) / Real.sqrt 2 = Real.cos (Real.pi / 4) := by
    rw [Real.cos_pi_div_four]
    have h2 : Real.sqrt 2 ≠ 0 := by positivity
    field_simp
  rw [h]
  exact Real.arccos_cos (by positivity) (by linarith [Real.pi_pos])

theorem angleBetween_diagonal (x : ℝ) (hx : x * x = 1) :
    AngleBetween Real.sqrt Real.arccos Real.pi ⟨0, 0, 1⟩ ⟨x, 0, 1⟩ = some 45 := by
  have h2 : Real.sqrt 2 ≠ 0 := by positivity
  have hm : Magnitude Real.sqrt (⟨x, 0, 1⟩ : Vec3 ℝ) = Real.sqrt 2 := by
    simp only [Magnitude, hx]
    norm_num
  have hn : Normalise Real.sqrt (⟨x, 0, 1⟩ : Vec3 ℝ)
      = some ⟨x * (1 / Real.sqrt 2), 0 * (1 / Real.sqrt 2), 1 * (1 / Real.sqrt 2)⟩ := by
    simp only [Normalise, hm, fdiv_of_ne_zero _ h2, Option.map_some', Vec3.scale]
  simp only [AngleBetween, normalise_unit_z, hn, Option.some_bind, DotProduct]
  have hc : (0 : ℝ) * (x * (1 / Real.sqrt 2)) + 0 * (0 * (1 / Real.sqrt 2))
      + 1 * (1 * (1 / Real.sqrt 2)) = 1 / Real.sqrt 2 := by ring
  rw [hc, arccos_inv_sqrt_two, fdiv_of_ne_zero _ Real.pi_ne_zero]
  congr 1
  field_simp
  ring

/-- C3, the code at the inputs named by the claim: with the default listener and the
default maximal distance, the angle computed for the emitter at `(1, 0, 1)` is `225`
and the angle computed for its mirror image `(-1, 0, 1)` is `45`; both make the
unsigned angle `45` with the look-at vector, and the two computed angles sum to `270`,
not to `360`. -/
theorem C3_mirror_images_get_225_and_45 :
    (InitiateEffects Real.sqrt Real.arccos Real.pi Listener.initial 100 ⟨1, 0, 1⟩).map Prod.fst
      = some 225 ∧
    (InitiateEffects Real.sqrt Real.arccos Real.pi Listener.initial 100 ⟨-1, 0, 1⟩).map Prod.fst
      = some 45 ∧
    AngleBetween Real.sqrt Real.arccos Real.pi ⟨0, 0, 1⟩ ⟨1, 0, 1⟩ = some 45 ∧
    AngleBetween Real.sqrt Real.arccos Real.pi ⟨0, 0, 1⟩ ⟨-1, 0, 1⟩ = some 45 := by
  have hmd : ∀ d : ℝ, ∃ v, mappedDistance (100 : ℝ) d = some v :=
    fun d => ⟨_, mappedDistance_eq 100 d (by norm_num)⟩
  refine ⟨?_, ?_, angleBetween_diagonal 1 (by norm_num), angleBetween_diagonal (-1) (by norm_num)⟩
  · obtain ⟨v, hv⟩ := hmd (Magnitude Real.sqrt ((⟨1, 0, 1⟩ : Vec3 ℝ).sub Listener.initial.m_position))
    simp only [InitiateEffects, Listener.initial, normalise_unit_z, Option.some_bind] at hv ⊢
    rw [hv]
    simp only [angleBetween, Vec3.sub, sub_zero, angleBetween_diagonal 1 (by norm_num),
      Option.map_some', Option.some_bind, DotProduct, CrossProduct]
    norm_num
  · obtain ⟨v, hv⟩ := hmd (Magnitude Real.sqrt ((⟨-1, 0, 1⟩ : Vec3 ℝ).sub Listener.initial.m_position))
    simp only [InitiateEffects, Listener.initial, normalise_unit_z, Option.some_bind] at hv ⊢
    rw [hv]
    simp only [angleBetween, Vec3.sub, sub_zero, angleBetween_diagonal (-1) (by norm_num),
      Option.map_some', Option.some_bind, DotProduct, CrossProduct]
    norm_num

theorem magnitude_ne_zero (v : Vec3 ℝ) (hv : v ≠ ⟨0, 0, 0⟩) : Magnitude Real.sqrt v ≠ 0 := by
  unfold Magnitude
  have hpos : 0 < v.x * v.x + v.y * v.y + v.z * v.z := by
    by_contra hle
    have hx := mul_self_nonneg v.x
    have hy := mul_self_nonneg v.y
    have hz := mul_self_nonneg v.z
    have h0 : v.x * v.x = 0 ∧ v.y * v.y = 0 ∧ v.z * v.z = 0 :=
      ⟨by linarith, by linarith, by linarith⟩
    apply hv
    cases v with
    | mk x y z =>
      simp only [mul_self_eq_zero] at h0
      simp [h0.1, h0.2.1, h0.2.2]
  exact (Real.sqrt_pos.mpr hpos).ne'

theorem normalise_ne_zero (v : Vec3 ℝ) (hv : v ≠ ⟨0, 0, 0⟩) :
    ∃ n, Normalise Real.sqrt v = some n ∧ n ≠ ⟨0, 0, 0⟩ := by
  have hm := magnitude_ne_zero v hv
  refine ⟨v.scale (1 / Magnitude Real.sqrt v), by simp [Normalise, fdiv_of_ne_zero _ hm], ?_⟩
  intro h
  apply hv
  have hr : (1 : ℝ) / Magnitude Real.sqrt v ≠ 0 := one_div_ne_zero hm
  cases v with
  | mk x y z =>
    simp only [Vec3.scale, Vec3.mk.injEq, mul_eq_zero, hr, or_false] at h
    simp [h.1, h.2.1, h.2.2]

/-- The part of C4 that holds: when the sound is not at the listener position, the
look-at vector is not zero and the maximal distance is positive, no division of
`InitiateEffects` has a zero divisor. -/
theorem initiateEffects_defined (listener : Listener ℝ) (M : ℝ) (m_position : Vec3 ℝ)
    (hpos : m_position ≠ listener.m_position) (hlook : listener.m_lookAtVector ≠ ⟨0, 0, 0⟩)
    (hM : 0 < M) :
    (InitiateEffects Real.sqrt Real.arccos Real.pi listener M m_position).isSome = true := by
  have hdir : m_position.sub listener.m_position ≠ ⟨0, 0, 0⟩ := by
    intro h
    apply hpos
    cases m_position with
    | mk x y z =>
      cases hl : listener.m_position with
      | mk a b c =>
        simp only [hl, Vec3.sub, Vec3.mk.injEq, sub_eq_zero] at h
        simp [h.1, h.2.1, h.2.2]
  obtain ⟨n, hn, hn0⟩ := normalise_ne_zero _ hlook
  obtain ⟨n2, hn2, -⟩ := normalise_ne_zero _ hn0
  obtain ⟨d, hd, -⟩ := normalise_ne_zero _ hdir
  simp [InitiateEffects, angleBetween, AngleBetween, hn, hn2, hd, mappedDistance_eq M _ hM,
    fdiv_of_ne_zero _ Real.pi_ne_zero]

/-- C4, the code in the default state: a sound at its default position `(0, 0, 0)` and
the listener at its default position `(0, 0, 0)` give the direction `(0, 0, 0)`, whose
magnitude is `0`; `Normalise(direction)`, evaluated inside `AngleBetween`, divides by
it, so `InitiateEffects` has no defined result. -/
theorem C4_default_state_divides_by_zero :
    Magnitude Real.sqrt ((⟨0, 0, 0⟩ : Vec3 ℝ).sub Listener.initial.m_position) = 0 ∧
    Normalise Real.sqrt ((⟨0, 0, 0⟩ : Vec3 ℝ).sub Listener.initial.m_position) = none ∧
    InitiateEffects Real.sqrt Real.arccos Real.pi Listener.initial 100 ⟨0, 0, 0⟩ = none := by
  have hm : Magnitude Real.sqrt ((⟨0, 0, 0⟩ : Vec3 ℝ).sub Listener.initial.m_position) = 0 := by
    simp [Magnitude, Vec3.sub, Listener.initial]
  have hn : Normalise Real.sqrt ((⟨0, 0, 0⟩ : Vec3 ℝ).sub Listener.initial.m_position) = none := by
    simp [Normalise, hm, fdiv_zero]
  refine ⟨hm, hn, ?_⟩
  simp only [InitiateEffects, angleBetween, AngleBetween, hn]
  simp [Listener.initial, normalise_unit_z]

/-! ## Theorems: loop counts and channels -/

section Playback

variable {K σ : Type}

/-- C7, the code at `LoopForever`: `Sound::Play(LoopForever, ...)` and
`Music::Play(LoopForever, ...)` convert `-1` to the unsigned value `4294967295`, and
the loop count `times - 1` they pass, converted to `int`, is `-2` on each of the four
paths (`Mix_PlayChannel`, `Mix_FadeInChannel`, `Mix_PlayMusic`, `Mix_FadeInMusic`), not
`-1`. -/
theorem C7_loopForever_passes_minus_two [LinearOrderedField K] [FloorRing K] (mx : Mixer σ)
    (sound : Sound K) (music : Music K) (fadeInMilliseconds : Nat) (w : World K σ) :
    toUnsigned (-1) = 4294967295 ∧
    toSigned (usub (toUnsigned (-1)) 1) = -2 ∧
    ((Sound.PlayLoopForever mx sound fadeInMilliseconds w).2.calls.getLast?.bind MixCall.loops?
      = some (-2)) ∧
    ((Music.PlayLoopForever mx music fadeInMilliseconds w).calls.getLast?.bind MixCall.loops?
      = some (-2)) := by
  have h1 : toUnsigned (-1) = 4294967295 := by decide
  have h2 : toSigned (usub 4294967295 1) = -2 := by decide
  refine ⟨h1, by rw [h1]; exact h2, ?_, ?_⟩
  · unfold Sound.PlayLoopForever Sound.Play
    rw [h1, h2]
    by_cases hf : fadeInMilliseconds = 0 <;> simp [hf, World.issue, MixCall.loops?]
  · unfold Music.PlayLoopForever Music.Play
    rw [h1, h2]
    by_cases hf : fadeInMilliseconds = 0 <;> simp [hf, World.issue, MixCall.loops?]

theorem sound_without_channel (mx : Mixer σ) (self : Sound K) (w : World K σ)
    (hc : self.m_channel = -1) :
    (Sound.Pause mx self w).calls = w.calls ++ [.Mix_Pause (-1)] ∧
    (Sound.Resume mx self w).calls = w.calls ++ [.Mix_Resume (-1)] ∧
    Sound.IsPlaying mx self w = (mx.Mix_Playing w.mixer (-1) != 0) ∧
    Sound.IsPaused mx self w = (mx.Mix_Paused w.mixer (-1) != 0) ∧
    Sound.Stop mx self w = (self, w) := by
  refine ⟨?_, ?_, ?_, ?_, ?_⟩
  · simp [Sound.Pause, World.issue, hc]
  · simp [Sound.Resume, World.issue, hc]
  · simp [Sound.IsPlaying, hc]
  · simp [Sound.IsPaused, hc]
  · simp [Sound.Stop, Sound.s_InvalidChannel, hc]

theorem sound_stop_channel (mx : Mixer σ) (self : Sound K) (w : World K σ) :
    (Sound.Stop mx self w).1.m_channel = -1 := by
  unfold Sound.Stop Sound.s_InvalidChannel
  by_cases h : self.m_channel = -1
  · simp [h]
  · simp [h]

/-- C8, the code on a sound that has no channel: on a sound just constructed and on a
sound that `Stop` has just left, `m_channel` is `-1`, and there `Pause` issues
`Mix_Pause(-1)`, `Resume` issues `Mix_Resume(-1)`, `IsPlaying` and `IsPaused` query
`Mix_Playing(-1)` and `Mix_Paused(-1)`; only `Stop`, which tests
`m_channel != s_InvalidChannel`, issues no call. -/
theorem C8_no_channel_addresses_all_channels [Zero K] [One K] (mx : Mixer σ) (loaded : Nat)
    (played : Sound K) (w₀ w : World K σ) :
    (Sound.new (loaded + 1) : Option (Sound K)) = some ⟨loaded + 1, -1, ⟨0, 0, 0⟩, 1⟩ ∧
    (Sound.Pause mx (⟨loaded + 1, -1, ⟨0, 0, 0⟩, 1⟩ : Sound K) w).calls
      = w.calls ++ [.Mix_Pause (-1)] ∧
    (Sound.Resume mx (⟨loaded + 1, -1, ⟨0, 0, 0⟩, 1⟩ : Sound K) w).calls
      = w.calls ++ [.Mix_Resume (-1)] ∧
    (Sound.Stop mx played w₀).1.m_channel = -1 ∧
    (Sound.Pause mx (Sound.Stop mx played w₀).1 w).calls = w.calls ++ [.Mix_Pause (-1)] ∧
    (Sound.Resume mx (Sound.Stop mx played w₀).1 w).calls = w.calls ++ [.Mix_Resume (-1)] ∧
    Sound.IsPlaying mx (Sound.Stop mx played w₀).1 w = (mx.Mix_Playing w.mixer (-1) != 0) ∧
    Sound.IsPaused mx (Sound.Stop mx played w₀).1 w = (mx.Mix_Paused w.mixer (-1) != 0) ∧
    Sound.Stop mx (Sound.Stop mx played w₀).1 w = ((Sound.Stop mx played w₀).1, w) ∧
    (MixCall.Mix_Pause (-1)).channel? = some (-1) ∧
    (MixCall.Mix_Resume (-1)).channel? = some (-1) :=
  ⟨by simp [Sound.new],
    (sound_without_channel mx _ w rfl).1,
    (sound_without_channel mx _ w rfl).2.1,
    sound_stop_channel mx played w₀,
    (sound_without_channel mx _ w (sound_stop_channel mx played w₀)).1,
    (sound_without_channel mx _ w (sound_stop_channel mx played w₀)).2.1,
    (sound_without_channel mx _ w (sound_stop_channel mx played w₀)).2.2.1,
    (sound_without_channel mx _ w (sound_stop_channel mx played w₀)).2.2.2.1,
    (sound_without_channel mx _ w (sound_stop_channel mx played w₀)).2.2.2.2, rfl, rfl⟩

end Playback

/-! ## Theorems: initialisation -/

section Init

variable {K : Type} [LinearOrderedField K]

theorem containsText_append (p t : String) : containsText (p ++ t) t := by
  unfold containsText
  rw [String.data_append]
  exact (List.suffix_append _ _).isInfix

theorem getFormat_error (formatInfo : FormatInfo) (message : String)
    (h : GetFormat formatInfo = .error message) :
    message = "Invalid format bit count." ∧ formatInfo.bitCount ≠ 8 ∧
    formatInfo.bitCount ≠ 16 ∧ (formatInfo.isSigned = true → formatInfo.bitCount ≠ 32) := by
  unfold GetFormat at h
  split_ifs at h with h1 h2 h3 h4 h5 h6 <;>
    first
    | (split at h <;> cases h)
    | cases h
  all_goals first
    | exact ⟨rfl, by assumption, by assumption, fun _ => by assumption⟩
    | exact ⟨rfl, by assumption, by assumption, fun hs => absurd hs (by assumption)⟩

/-- C5 as amended: every `Error` raised by `Initialise` is one of four: one of the
three wrapped native errors, whose message is a fixed prefix followed by the text of
`SDL_GetError` or of `Mix_GetError` (and so contains that text), or the error
`Invalid format bit count.` that `GetFormat` raises by its own check, which happens
only for a bit count other than 8 and 16 and, for a signed format, 32. -/
theorem C5_errors_of_Initialise (lib : NativeLibrary) (initialiseData : InitialiseData K)
    (message : String) (h : Initialise lib initialiseData = .error message) :
    (message = "Failed to initialise SDL's audio subsystem.\nError: " ++ lib.SDL_GetError ∧
      containsText message lib.SDL_GetError) ∨
    (message = "Failed to initialise SDL_Mixer.\nError: " ++ lib.Mix_GetError ∧
      containsText message lib.Mix_GetError) ∨
    (message = "Failed to open audio: " ++ lib.Mix_GetError ∧
      containsText message lib.Mix_GetError) ∨
    (message = "Invalid format bit count." ∧
      initialiseData.formatInfo.bitCount ≠ 8 ∧ initialiseData.formatInfo.bitCount ≠ 16 ∧
      (initialiseData.formatInfo.isSigned = true → initialiseData.formatInfo.bitCount ≠ 32)) := by
  unfold Initialise at h
  by_cases h1 : lib.SDL_WasInit SDL_INIT_AUDIO = 0 ∧ lib.SDL_InitSubSystem SDL_INIT_AUDIO ≠ 0
  · rw [if_pos h1] at h
    injection h with h
    subst h
    exact Or.inl ⟨rfl, containsText_append _ _⟩
  · rw [if_neg h1] at h
    dsimp only at h
    by_cases h2 : lib.Mix_Init (requiredFlags initialiseData.requiredFileTypes)
        ≠ requiredFlags initialiseData.requiredFileTypes
    · rw [if_pos h2] at h
      injection h with h
      subst h
      exact Or.inr (Or.inl ⟨rfl, containsText_append _ _⟩)
    · rw [if_neg h2] at h
      cases hf : GetFormat initialiseData.formatInfo with
      | error e =>
        simp only [hf] at h
        injection h with h
        subst h
        exact Or.inr (Or.inr (Or.inr (getFormat_error _ _ hf)))
      | ok format =>
        simp only [hf] at h
        by_cases h3 : lib.Mix_OpenAudio (toSigned initialiseData.frequency) format
            MIX_DEFAULT_CHANNELS (toSigned initialiseData.chunkSize) = -1
        · rw [if_pos h3] at h
          injection h with h
          subst h
          exact Or.inr (Or.inr (Or.inl ⟨rfl, containsText_append _ _⟩))
        · rw [if_neg h3] at h
          cases h

theorem C5_errors_of_Initialise_witness :
    Initialise NativeLibrary.succeeding
        ({ formatInfo := { isSigned := false, bitCount := 32 } } : InitialiseData ℚ)
      = .error "Invalid format bit count." ∧
    ¬ containsText "Invalid format bit count." NativeLibrary.succeeding.SDL_GetError ∧
    ¬ containsText "Invalid format bit count." NativeLibrary.succeeding.Mix_GetError ∧
    ("Invalid format bit count." = "Invalid format bit count." ∧
      (32 : Nat) ≠ 8 ∧ (32 : Nat) ≠ 16 ∧ (false = true → (32 : Nat) ≠ 32)) :=
  ⟨by simp [Initialise, NativeLibrary.succeeding, GetFormat, requiredFlags],
    by decide, by decide,
    (((C5_errors_of_Initialise NativeLibrary.succeeding
      ({ formatInfo := { isSigned := false, bitCount := 32 } } : InitialiseData ℚ)
      "Invalid format bit count."
      (by simp [Initialise, NativeLibrary.succeeding, GetFormat, requiredFlags])).resolve_left
        (fun h => absurd h.2 (by decide))).resolve_left
        (fun h => absurd h.2 (by decide))).resolve_left
        (fun h => absurd h.2 (by decide))⟩

/-- C5 refuted as stated: with a native library in which every call succeeds, a
signed format of 24 bits makes `Initialise` raise `Invalid format bit count.`, an error
of this code's own check, whose message contains neither native error text. -/
theorem C5_own_check_error :
    Initialise NativeLibrary.succeeding
        ({ formatInfo := { bitCount := 24 } } : InitialiseData ℚ)
      = .error "Invalid format bit count." ∧
    ¬ containsText "Invalid format bit count." NativeLibrary.succeeding.SDL_GetError ∧
    ¬ containsText "Invalid format bit count." NativeLibrary.succeeding.Mix_GetError := by
  refine ⟨?_, ?_, ?_⟩
  · simp [Initialise, NativeLibrary.succeeding, GetFormat, requiredFlags]
  · decide
  · decide

/-- C6, the code when the mixer reports more than was asked for: with OGG required
(`flags = 16`) and a mixer that has the MP3 loader initialised as well, `Mix_Init`
returns `24`, which has every requested bit, yet `Initialise` raises
`Failed to initialise SDL_Mixer`; the same happens with no required file type
(`flags = 0`, return value `8`). -/
theorem C6_error_raised_though_all_bits_present :
    requiredFlags [RequiredFileTypes.OGG] = 16 ∧
    NativeLibrary.withMP3Loaded.Mix_Init 16 = 24 ∧
    (24 : Nat) &&& 16 = 16 ∧
    Initialise NativeLibrary.withMP3Loaded
        ({ requiredFileTypes := [RequiredFileTypes.OGG] } : InitialiseData ℚ)
      = .error ("Failed to initialise SDL_Mixer.\nError: " ++
          NativeLibrary.withMP3Loaded.Mix_GetError) ∧
    requiredFlags [] = 0 ∧
    NativeLibrary.withMP3Loaded.Mix_Init 0 = 8 ∧
    (8 : Nat) &&& 0 = 0 ∧
    Initialise NativeLibrary.withMP3Loaded ({ } : InitialiseData ℚ)
      = .error ("Failed to initialise SDL_Mixer.\nError: " ++
          NativeLibrary.withMP3Loaded.Mix_GetError) := by
  refine ⟨by decide, by decide, by decide, ?_, by decide, by decide, by decide, ?_⟩
  · simp [Initialise, NativeLibrary.withMP3Loaded, NativeLibrary.succeeding, requiredFlags,
      RequiredFileTypes.toFlag, SDL_INIT_AUDIO]
  · simp [Initialise, NativeLibrary.withMP3Loaded, NativeLibrary.succeeding, requiredFlags,
      SDL_INIT_AUDIO]

end Init

/-! ## Theorems: ownership of the native handles -/

section Stores

variable {α β : Type}

theorem count_set_add {γ : Type} [BEq γ] (l : List γ) (i : Nat) (x o b : γ)
    (hi : l[i]? = some o) :
    (l.set i x).count b + (if o == b then 1 else 0)
      = l.count b + (if x == b then 1 else 0) := by
  induction l generalizing i with
  | nil => simp at hi
  | cons y ys ih =>
    cases i with
    | zero =>
      simp only [List.getElem?_cons_zero, Option.some.injEq] at hi
      subst hi
      simp only [List.set_cons_zero, List.count_cons]
      omega
    | succ n =>
      simp only [List.getElem?_cons_succ] at hi
      have := ih n hi
      simp only [List.set_cons_succ, List.count_cons]
      omega

theorem getAt_eq_some_iff (objs : List (Option α)) (i : Nat) (a : α) :
    getAt objs i = some a ↔ objs[i]? = some (some a) := by
  unfold getAt
  rw [List.get?_eq_getElem?]
  cases objs[i]? with
  | none => simp
  | some o => cases o <;> simp

theorem getAt_lt_length (objs : List (Option α)) (i : Nat) (a : α) (h : getAt objs i = some a) :
    i < objs.length := by
  rw [getAt_eq_some_iff] at h
  by_contra hlt
  rw [List.getElem?_eq_none (not_lt.mp hlt)] at h
  cases h

theorem getAt_set (objs : List (Option α)) (i j : Nat) (x : Option α) :
    getAt (objs.set i x) j
      = if i = j then (if i < objs.length then x else none) else getAt objs j := by
  unfold getAt
  simp only [List.get?_eq_getElem?, List.getElem?_set]
  by_cases hij : i = j
  · by_cases hl : i < objs.length <;> simp [hij, hl] <;> simp [← hij, hl]
  · simp [hij]

theorem getAt_modifyAt (objs : List (Option α)) (i j : Nat) (f : α → α) :
    getAt (modifyAt objs i f) j = if i = j then (getAt objs j).map f else getAt objs j := by
  unfold modifyAt
  cases hg : getAt objs i with
  | none =>
    by_cases hij : i = j
    · subst hij; simp [hg]
    · simp [hij]
  | some o =>
    have hl := getAt_lt_length objs i o hg
    simp only [getAt_set, hl, if_true]
    by_cases hij : i = j
    · subst hij; simp [hg]
    · simp [hij]

theorem handles_set (handle : α → Nat) (objs : List (Option α)) (i : Nat) (x : Option α) :
    handles handle (objs.set i x) = (handles handle objs).set i (x.map handle) := by
  simp [handles, List.map_set]

theorem handles_getElem? (handle : α → Nat) (objs : List (Option α)) (i : Nat) :
    (handles handle objs)[i]? = (objs[i]?).map (Option.map handle) := by
  simp [handles]

theorem held_set (handle : α → Nat) (h : Nat) (objs : List (Option α)) (i : Nat)
    (x o : Option α) (hi : objs[i]? = some o) :
    held handle h (objs.set i x) + (if o.map handle = some h then 1 else 0)
      = held handle h objs + (if x.map handle = some h then 1 else 0) := by
  unfold held
  rw [handles_set]
  have := count_set_add (handles handle objs) i (x.map handle) (o.map handle) (some h)
    (by rw [handles_getElem?, hi]; rfl)
  simpa only [beq_iff_eq] using this

theorem held_append (handle : α → Nat) (h : Nat) (objs : List (Option α)) (x : Option α) :
    held handle h (objs ++ [x])
      = held handle h objs + (if x.map handle = some h then 1 else 0) := by
  simp [held, handles, List.count_singleton]

theorem held_set_some (handle : α → Nat) (h : Nat) (objs : List (Option α)) (i : Nat)
    (a b : α) (hi : getAt objs i = some a) :
    held handle h (objs.set i (some b)) + (if handle a = h then 1 else 0)
      = held handle h objs + (if handle b = h then 1 else 0) := by
  have := held_set handle h objs i (some b) (some a) ((getAt_eq_some_iff _ _ _).mp hi)
  simpa using this

theorem held_set_none (handle : α → Nat) (h : Nat) (objs : List (Option α)) (i : Nat)
    (a : α) (hi : getAt objs i = some a) :
    held handle h (objs.set i none) + (if handle a = h then 1 else 0)
      = held handle h objs := by
  have := held_set handle h objs i none (some a) ((getAt_eq_some_iff _ _ _).mp hi)
  simpa using this

theorem held_modifyAt (handle : α → Nat) (h : Nat) (objs : List (Option α)) (i : Nat)
    (f : α → α) (a : α) (hi : getAt objs i = some a) :
    held handle h (modifyAt objs i f) + (if handle a = h then 1 else 0)
      = held handle h objs + (if handle (f a) = h then 1 else 0) := by
  unfold modifyAt
  rw [hi]
  exact held_set_some handle h objs i a (f a) hi

theorem held_modifyAt_preserve (handle : α → Nat) (h : Nat) (objs : List (Option α)) (i : Nat)
    (f : α → α) (hf : ∀ a, handle (f a) = handle a) :
    held handle h (modifyAt objs i f) = held handle h objs := by
  cases hi : getAt objs i with
  | none => simp [modifyAt, hi]
  | some a =>
    have := held_modifyAt handle h objs i f a hi
    rw [hf a] at this
    omega

theorem handleAt_modifyAt_preserve (handle : α → Nat) (objs : List (Option α)) (i j : Nat)
    (f : α → α) (hf : ∀ a, handle (f a) = handle a) :
    handleAt handle (modifyAt objs i f) j = handleAt handle objs j := by
  unfold handleAt
  rw [getAt_modifyAt]
  by_cases hij : i = j
  · simp only [hij, if_true, Option.map_map]
    congr 1
    funext a
    exact hf a
  · simp [hij]

theorem held_exchange_preserve (handle : α → Nat) (h : Nat) (get : α → β) (put : β → α → α)
    (reset : β) (objs : List (Option α)) (self other : Nat)
    (hput : ∀ v a, handle (put v a) = handle a) :
    held handle h (exchangeField get put reset objs self other) = held handle h objs := by
  unfold exchangeField
  cases getAt objs other with
  | none => rfl
  | some o =>
    simp only []
    rw [held_modifyAt_preserve handle h _ self _ (hput _),
      held_modifyAt_preserve handle h _ other _ (hput _)]

theorem handleAt_exchange_preserve (handle : α → Nat) (get : α → β) (put : β → α → α)
    (reset : β) (objs : List (Option α)) (self other j : Nat)
    (hput : ∀ v a, handle (put v a) = handle a) :
    handleAt handle (exchangeField get put reset objs self other) j = handleAt handle objs j := by
  unfold exchangeField
  cases getAt objs other with
  | none => rfl
  | some o =>
    simp only []
    rw [handleAt_modifyAt_preserve handle _ self j _ (hput _),
      handleAt_modifyAt_preserve handle _ other j _ (hput _)]

theorem held_exchange_handle (handle : α → Nat) (put : Nat → α → α)
    (hput : ∀ v a, handle (put v a) = v) (h : Nat) (hh : h ≠ 0) (objs : List (Option α))
    (self other : Nat) (a : α) (ha : getAt objs self = some a) (ha0 : handle a = 0) :
    held handle h (exchangeField handle put 0 objs self other) = held handle h objs := by
  unfold exchangeField
  cases hb : getAt objs other with
  | none => rfl
  | some b =>
    simp only []
    have h1 := held_modifyAt handle h objs other (put 0) b hb
    have hself : ∃ c, getAt (modifyAt objs other (put 0)) self = some c ∧ handle c = 0 := by
      rw [getAt_modifyAt]
      by_cases hos : other = self
      · subst hos
        rw [hb] at ha
        exact ⟨put 0 b, by simp [hb], hput 0 b⟩
      · exact ⟨a, by simp [hos, ha], ha0⟩
    obtain ⟨c, hc, hc0⟩ := hself
    have h2 := held_modifyAt handle h (modifyAt objs other (put 0)) self (put (handle b)) c hc
    rw [hput] at h1 h2
    rw [hc0] at h2
    have hh' : ¬ (0 = h) := fun e => hh e.symm
    simp only [hh', if_false, Nat.add_zero] at h1 h2
    omega

theorem handleAt_exchange_handle (handle : α → Nat) (put : Nat → α → α)
    (hput : ∀ v a, handle (put v a) = v) (objs : List (Option α))
    (self other : Nat) (a b : α) (ha : getAt objs self = some a)
    (hb : getAt objs other = some b) :
    handleAt handle (exchangeField handle put 0 objs self other) self = some (handle b) ∧
    (self ≠ other →
      handleAt handle (exchangeField handle put 0 objs self other) other = some 0) := by
  unfold exchangeField handleAt
  simp only [hb, getAt_modifyAt]
  constructor
  · by_cases hos : other = self
    · subst hos
      simp [hb, hput]
    · simp [hos, ha, hput]
  · intro hne
    simp [hne, hb, hput]

end Stores

section Lifetimes

variable {K σ : Type}

theorem sameBalance_refl (w : World K σ) : w.sameBalance w :=
  ⟨fun _ _ => rfl, fun _ _ => rfl, rfl, rfl⟩

theorem sameBalance_trans {u v w : World K σ} (h1 : u.sameBalance v) (h2 : v.sameBalance w) :
    u.sameBalance w :=
  ⟨fun h hh => (h2.1 h hh).trans (h1.1 h hh), fun h hh => (h2.2.1 h hh).trans (h1.2.1 h hh),
    h2.2.2.1.trans h1.2.2.1, h2.2.2.2.trans h1.2.2.2⟩

/-- The effect of the guarded `Destroy()` of a `Sound` on the balances and on the store. -/
theorem guardedDestroySound_spec (mx : Mixer σ) (self : Nat) (w : World K σ) :
    w.sameBalance (w.guardedDestroySound mx self) ∧
    (w.guardedDestroySound mx self).musics = w.musics ∧
    (∀ a, getAt w.sounds self = some a →
      ∃ c, getAt (w.guardedDestroySound mx self).sounds self = some c ∧ c.m_chunkHandle = 0) ∧
    (∀ j, j ≠ self → getAt (w.guardedDestroySound mx self).sounds j = getAt w.sounds j) := by
  cases hg : getAt w.sounds self with
  | none =>
    have e : w.guardedDestroySound mx self = w := by simp [World.guardedDestroySound, hg]
    rw [e]
    exact ⟨sameBalance_refl w, rfl, fun a ha => (by cases ha), fun _ _ => rfl⟩
  | some s =>
    by_cases h0 : s.m_chunkHandle = 0
    · have e : w.guardedDestroySound mx self = w := by
        simp [World.guardedDestroySound, hg, h0]
      rw [e]
      exact ⟨sameBalance_refl w, rfl, fun a _ => ⟨s, hg, h0⟩, fun _ _ => rfl⟩
    · have hl := getAt_lt_length _ _ _ hg
      have e : w.guardedDestroySound mx self
          = { w with sounds := w.sounds.set self (some { s with m_chunkHandle := 0 })
                     mixer := mx.react (.Mix_FreeChunk s.m_chunkHandle) w.mixer
                     calls := w.calls ++ [.Mix_FreeChunk s.m_chunkHandle] } := by
        simp [World.guardedDestroySound, hg, h0, Sound.Destroy, World.issue]
      rw [e]
      refine ⟨⟨?_, ?_, ?_, ?_⟩, rfl, ?_, ?_⟩
      · intro h hh
        have := held_set_some Sound.m_chunkHandle h w.sounds self s
          { s with m_chunkHandle := 0 } hg
        have hh' : ¬ (0 = h) := fun e => hh e.symm
        simp only [hh', if_false, Nat.add_zero] at this
        simp only [World.chunkBalance, World.freedChunk, List.count_append,
          List.count_singleton, beq_iff_eq, MixCall.Mix_FreeChunk.injEq]
        omega
      · intro h _
        simp [World.musicBalance, World.freedMusic, List.count_singleton]
      · simp [World.freedChunk, List.count_singleton, h0]
      · simp [World.freedMusic, List.count_singleton]
      · intro a _
        exact ⟨{ s with m_chunkHandle := 0 }, by simp [getAt_set, hl], rfl⟩
      · intro j hj
        simp [getAt_set, Ne.symm hj]

theorem music_stop_frame (mx : Mixer σ) (m : Music K) (fadeOutMilliseconds : Nat)
    (w : World K σ) :
    (Music.Stop mx m fadeOutMilliseconds w).sounds = w.sounds ∧
    (Music.Stop mx m fadeOutMilliseconds w).musics = w.musics ∧
    (∀ h, (Music.Stop mx m fadeOutMilliseconds w).freedChunk h = w.freedChunk h) ∧
    (∀ h, (Music.Stop mx m fadeOutMilliseconds w).freedMusic h = w.freedMusic h) := by
  unfold Music.Stop Music.StopAllMusic
  by_cases hp : (Music.IsPlaying mx m w || Music.IsPaused mx m w) = true
  · by_cases hf : fadeOutMilliseconds = 0 <;>
      simp [hp, hf, World.issue, World.freedChunk, World.freedMusic, List.count_singleton]
  · simp [hp]

/-- The effect of the guarded `Destroy()` of a `Music` on the balances and on the store. -/
theorem guardedDestroyMusic_spec (mx : Mixer σ) (self : Nat) (w : World K σ) :
    w.sameBalance (w.guardedDestroyMusic mx self) ∧
    (w.guardedDestroyMusic mx self).sounds = w.sounds ∧
    (∀ a, getAt w.musics self = some a →
      ∃ c, getAt (w.guardedDestroyMusic mx self).musics self = some c ∧ c.m_musicHandle = 0) ∧
    (∀ j, j ≠ self → getAt (w.guardedDestroyMusic mx self).musics j = getAt w.musics j) := by
  cases hg : getAt w.musics self with
  | none =>
    have e : w.guardedDestroyMusic mx self = w := by simp [World.guardedDestroyMusic, hg]
    rw [e]
    exact ⟨sameBalance_refl w, rfl, fun a ha => (by cases ha), fun _ _ => rfl⟩
  | some m =>
    by_cases h0 : m.m_musicHandle = 0
    · have e : w.guardedDestroyMusic mx self = w := by
        simp [World.guardedDestroyMusic, hg, h0]
      rw [e]
      exact ⟨sameBalance_refl w, rfl, fun a _ => ⟨m, hg, h0⟩, fun _ _ => rfl⟩
    · obtain ⟨hs, hm, hfc, hfm⟩ := music_stop_frame mx m 0 w
      have hg2 : getAt (Music.Stop mx m 0 w).musics self = some m := by rw [hm]; exact hg
      have hl := getAt_lt_length _ _ _ hg2
      have e : w.guardedDestroyMusic mx self
          = { Music.Stop mx m 0 w with
                musics := (Music.Stop mx m 0 w).musics.set self (some { m with m_musicHandle := 0 })
                mixer := mx.react (.Mix_FreeMusic m.m_musicHandle) (Music.Stop mx m 0 w).mixer
                calls := (Music.Stop mx m 0 w).calls ++ [.Mix_FreeMusic m.m_musicHandle] } := by
        simp [World.guardedDestroyMusic, hg, h0, Music.Destroy, World.issue]
      rw [e]
      refine ⟨⟨?_, ?_, ?_, ?_⟩, hs, ?_, ?_⟩
      · intro h _
        have := hfc h
        simp only [World.chunkBalance, World.freedChunk, List.count_append, hs] at this ⊢
        simp [List.count_singleton, this]
      · intro h hh
        have := held_set_some Music.m_musicHandle h (Music.Stop mx m 0 w).musics self m
          { m with m_musicHandle := 0 } hg2
        have hh' : ¬ (0 = h) := fun e => hh e.symm
        simp only [hh', if_false, Nat.add_zero] at this
        have h3 := hfm h
        simp only [World.musicBalance, World.freedMusic, List.count_append,
          List.count_singleton, beq_iff_eq, MixCall.Mix_FreeMusic.injEq] at h3 ⊢
        rw [hm] at this ⊢
        omega
      · have := hfc 0
        simp only [World.freedChunk, List.count_append] at this ⊢
        simp [List.count_singleton, this]
      · have := hfm 0
        simp only [World.freedMusic, List.count_append] at this ⊢
        simp [List.count_singleton, this, h0]
      · intro a _
        exact ⟨{ m with m_musicHandle := 0 }, by simp [getAt_set, hl], rfl⟩
      · intro j hj
        simp [getAt_set, Ne.symm hj, hm]

theorem deleteSound_sameBalance (mx : Mixer σ) (self : Nat) (w : World K σ) :
    w.sameBalance (w.deleteSound mx self) := by
  cases hg : getAt w.sounds self with
  | none =>
    have e : w.deleteSound mx self = w := by simp [World.deleteSound, hg]
    rw [e]
    exact sameBalance_refl w
  | some s =>
    by_cases h0 : s.m_chunkHandle = 0
    · have e : w.deleteSound mx self = { w with sounds := w.sounds.set self none } := by
        simp [World.deleteSound, hg, h0, Sound.Destroy]
      rw [e]
      refine ⟨?_, fun _ _ => rfl, rfl, rfl⟩
      intro h hh
      have := held_set_none Sound.m_chunkHandle h w.sounds self s hg
      have hh' : ¬ (s.m_chunkHandle = h) := fun e => hh (e ▸ h0)
      simp only [hh', if_false, Nat.add_zero] at this
      simp only [World.chunkBalance, World.freedChunk, this]
    · have e : w.deleteSound mx self
          = { w with sounds := w.sounds.set self none
                     mixer := mx.react (.Mix_FreeChunk s.m_chunkHandle) w.mixer
                     calls := w.calls ++ [.Mix_FreeChunk s.m_chunkHandle] } := by
        simp [World.deleteSound, hg, h0, Sound.Destroy, World.issue]
      rw [e]
      refine ⟨?_, ?_, ?_, ?_⟩
      · intro h _
        have := held_set_none Sound.m_chunkHandle h w.sounds self s hg
        simp only [World.chunkBalance, World.freedChunk, List.count_append,
          List.count_singleton, beq_iff_eq, MixCall.Mix_FreeChunk.injEq]
        omega
      · intro h _
        simp [World.musicBalance, World.freedMusic, List.count_singleton]
      · simp [World.freedChunk, List.count_singleton, h0]
      · simp [World.freedMusic, List.count_singleton]

theorem deleteMusic_sameBalance (mx : Mixer σ) (self : Nat) (w : World K σ) :
    w.sameBalance (w.deleteMusic mx self) := by
  cases hg : getAt w.musics self with
  | none =>
    have e : w.deleteMusic mx self = w := by simp [World.deleteMusic, hg]
    rw [e]
    exact sameBalance_refl w
  | some m =>
    obtain ⟨hs, hm, hfc, hfm⟩ := music_stop_frame mx m 0 w
    have hg2 : getAt (Music.Stop mx m 0 w).musics self = some m := by rw [hm]; exact hg
    by_cases h0 : m.m_musicHandle = 0
    · have e : w.deleteMusic mx self
          = { Music.Stop mx m 0 w with musics := (Music.Stop mx m 0 w).musics.set self none } := by
        simp [World.deleteMusic, hg, h0, Music.Destroy]
      rw [e]
      refine ⟨?_, ?_, hfc 0, hfm 0⟩
      · intro h _
        have := hfc h
        simp only [World.chunkBalance, World.freedChunk, hs] at this ⊢
        rw [this]
      · intro h hh
        have := held_set_none Music.m_musicHandle h (Music.Stop mx m 0 w).musics self m hg2
        have hh' : ¬ (m.m_musicHandle = h) := fun e => hh (e ▸ h0)
        simp only [hh', if_false, Nat.add_zero] at this
        have h3 := hfm h
        simp only [World.musicBalance, World.freedMusic] at h3 ⊢
        rw [this, hm, h3]
    · have e : w.deleteMusic mx self
          = { Music.Stop mx m 0 w with
                musics := (Music.Stop mx m 0 w).musics.set self none
                mixer := mx.react (.Mix_FreeMusic m.m_musicHandle) (Music.Stop mx m 0 w).mixer
                calls := (Music.Stop mx m 0 w).calls ++ [.Mix_FreeMusic m.m_musicHandle] } := by
        simp [World.deleteMusic, hg, h0, Music.Destroy, World.issue]
      rw [e]
      refine ⟨?_, ?_, ?_, ?_⟩
      · intro h _
        have := hfc h
        simp only [World.chunkBalance, World.freedChunk, List.count_append, hs] at this ⊢
        simp [List.count_singleton, this]
      · intro h _
        have := held_set_none Music.m_musicHandle h (Music.Stop mx m 0 w).musics self m hg2
        have h3 := hfm h
        simp only [World.musicBalance, World.freedMusic, List.count_append,
          List.count_singleton, beq_iff_eq, MixCall.Mix_FreeMusic.injEq] at h3 ⊢
        rw [hm] at this ⊢
        omega
      · have := hfc 0
        simp only [World.freedChunk, List.count_append] at this ⊢
        simp [List.count_singleton, this]
      · have := hfm 0
        simp only [World.freedMusic, List.count_append] at this ⊢
        simp [List.count_singleton, this, h0]

theorem getAt_append_new {α : Type} (objs : List (Option α)) (x : Option α) :
    getAt (objs ++ [x]) objs.length = x := by
  simp [getAt]

theorem sameBalance_sounds (w : World K σ) (objs : List (Option (Sound K)))
    (h : ∀ h, h ≠ 0 → held Sound.m_chunkHandle h objs = held Sound.m_chunkHandle h w.sounds) :
    w.sameBalance { w with sounds := objs } :=
  ⟨fun k hk => by simp only [World.chunkBalance, World.freedChunk, h k hk],
    fun _ _ => rfl, rfl, rfl⟩

theorem sameBalance_musics (w : World K σ) (objs : List (Option (Music K)))
    (h : ∀ h, h ≠ 0 → held Music.m_musicHandle h objs = held Music.m_musicHandle h w.musics) :
    w.sameBalance { w with musics := objs } :=
  ⟨fun _ _ => rfl,
    fun k hk => by simp only [World.musicBalance, World.freedMusic, h k hk], rfl, rfl⟩

theorem moveSound_sameBalance (mx : Mixer σ) (other : Nat) (w : World K σ) :
    w.sameBalance (w.moveSound mx other) := by
  cases hg : getAt w.sounds other with
  | none =>
    have e : w.moveSound mx other = w := by simp [World.moveSound, hg]
    rw [e]
    exact sameBalance_refl w
  | some o =>
    obtain ⟨w₁, hw₁⟩ : ∃ w₁ : World K σ, w₁ = { w with sounds := w.sounds ++
        [some { m_chunkHandle := 0, m_channel := o.m_channel, m_position := o.m_position,
                m_volume := o.m_volume }] } := ⟨_, rfl⟩
    have h1 : w.sameBalance w₁ := by
      rw [hw₁]
      apply sameBalance_sounds
      intro h hh
      rw [held_append]
      have hh' : ¬ (0 = h) := fun e => hh e.symm
      simp [hh']
    obtain ⟨h2, -, h3, -⟩ := guardedDestroySound_spec mx w.sounds.length w₁
    obtain ⟨c, hc, hc0⟩ := h3 _ (by rw [hw₁]; exact getAt_append_new _ _)
    have e : w.moveSound mx other
        = { World.guardedDestroySound mx w.sounds.length w₁ with
            sounds := exchangeField Sound.m_chunkHandle (fun h s => { s with m_chunkHandle := h }) 0
              (World.guardedDestroySound mx w.sounds.length w₁).sounds w.sounds.length other } := by
      rw [hw₁]
      simp only [World.moveSound, hg]
    rw [e]
    refine sameBalance_trans (sameBalance_trans h1 h2) (sameBalance_sounds _ _ ?_)
    intro h hh
    exact held_exchange_handle Sound.m_chunkHandle _ (fun _ _ => rfl) h hh _ _ _ c hc hc0

theorem moveMusic_sameBalance (mx : Mixer σ) (other : Nat) (w : World K σ) :
    w.sameBalance (w.moveMusic mx other) := by
  cases hg : getAt w.musics other with
  | none =>
    have e : w.moveMusic mx other = w := by simp [World.moveMusic, hg]
    rw [e]
    exact sameBalance_refl w
  | some o =>
    obtain ⟨w₁, hw₁⟩ : ∃ w₁ : World K σ, w₁ = { w with musics := w.musics ++
        [some { m_musicHandle := 0, m_volume := o.m_volume }] } := ⟨_, rfl⟩
    have h1 : w.sameBalance w₁ := by
      rw [hw₁]
      apply sameBalance_musics
      intro h hh
      rw [held_append]
      have hh' : ¬ (0 = h) := fun e => hh e.symm
      simp [hh']
    obtain ⟨h2, -, h3, -⟩ := guardedDestroyMusic_spec mx w.musics.length w₁
    obtain ⟨c, hc, hc0⟩ := h3 _ (by rw [hw₁]; exact getAt_append_new _ _)
    have e : w.moveMusic mx other
        = { World.guardedDestroyMusic mx w.musics.length w₁ with
            musics := exchangeField Music.m_musicHandle (fun h m => { m with m_musicHandle := h }) 0
              (World.guardedDestroyMusic mx w.musics.length w₁).musics w.musics.length other } := by
      rw [hw₁]
      simp only [World.moveMusic, hg]
    rw [e]
    refine sameBalance_trans (sameBalance_trans h1 h2) (sameBalance_musics _ _ ?_)
    intro h hh
    exact held_exchange_handle Music.m_musicHandle _ (fun _ _ => rfl) h hh _ _ _ c hc hc0

/-- The move assignment of `Sound`: the balances are kept; for two distinct live
objects the source ends with `nullptr` and the target with the former handle of the
source; a self-move-assignment ends with `nullptr`. -/
theorem assignSound_spec [Zero K] [One K] (mx : Mixer σ) (self other : Nat) (w : World K σ) :
    w.sameBalance (w.assignSound mx self other) ∧
    (∀ a b, getAt w.sounds self = some a → getAt w.sounds other = some b →
      (self ≠ other →
        handleAt Sound.m_chunkHandle (w.assignSound mx self other).sounds other = some 0 ∧
        handleAt Sound.m_chunkHandle (w.assignSound mx self other).sounds self
          = some b.m_chunkHandle) ∧
      (self = other →
        handleAt Sound.m_chunkHandle (w.assignSound mx self other).sounds self = some 0)) := by
  cases ha : getAt w.sounds self with
  | none =>
    have e : w.assignSound mx self other = w := by simp [World.assignSound, ha]
    rw [e]
    exact ⟨sameBalance_refl w, fun a b h => (by cases h)⟩
  | some a =>
    cases hb : getAt w.sounds other with
    | none =>
      have e : w.assignSound mx self other = w := by simp [World.assignSound, ha, hb]
      rw [e]
      exact ⟨sameBalance_refl w, fun a b _ h => (by cases h)⟩
    | some b =>
      obtain ⟨h2, -, h3, h4⟩ := guardedDestroySound_spec mx self w
      obtain ⟨c, hc, hc0⟩ := h3 a ha
      have e : w.assignSound mx self other
          = { World.guardedDestroySound mx self w with
              sounds :=
                exchangeField Sound.m_volume (fun v s => { s with m_volume := v }) 1
                  (exchangeField Sound.m_position (fun p s => { s with m_position := p }) ⟨0, 0, 0⟩
                    (exchangeField Sound.m_channel (fun c s => { s with m_channel := c })
                      Sound.s_InvalidChannel
                      (exchangeField Sound.m_chunkHandle
                        (fun h s => { s with m_chunkHandle := h }) 0
                        (World.guardedDestroySound mx self w).sounds self other) self other)
                    self other) self other } := by
        simp only [World.assignSound, ha, hb]
      rw [e]
      refine ⟨sameBalance_trans h2 (sameBalance_sounds _ _ ?_), ?_⟩
      · intro h hh
        refine (held_exchange_preserve Sound.m_chunkHandle h _ _ _ _ _ _ ?_).trans ?_
        · exact fun _ _ => rfl
        refine (held_exchange_preserve Sound.m_chunkHandle h _ _ _ _ _ _ ?_).trans ?_
        · exact fun _ _ => rfl
        refine (held_exchange_preserve Sound.m_chunkHandle h _ _ _ _ _ _ ?_).trans ?_
        · exact fun _ _ => rfl
        exact held_exchange_handle Sound.m_chunkHandle _ (fun _ _ => rfl) h hh _ _ _ c hc hc0
      · intro a' b' ha' hb'
        cases ha'
        cases hb'
        have hkeep : ∀ j, handleAt Sound.m_chunkHandle
            (exchangeField Sound.m_volume (fun v s => { s with m_volume := v }) 1
              (exchangeField Sound.m_position (fun p s => { s with m_position := p }) ⟨0, 0, 0⟩
                (exchangeField Sound.m_channel (fun c s => { s with m_channel := c })
                  Sound.s_InvalidChannel
                  (exchangeField Sound.m_chunkHandle
                    (fun h s => { s with m_chunkHandle := h }) 0
                    (World.guardedDestroySound mx self w).sounds self other) self other)
                self other) self other) j
            = handleAt Sound.m_chunkHandle
                (exchangeField Sound.m_chunkHandle (fun h s => { s with m_chunkHandle := h }) 0
                  (World.guardedDestroySound mx self w).sounds self other) j := by
          intro j
          refine (handleAt_exchange_preserve Sound.m_chunkHandle _ _ _ _ _ _ _ ?_).trans ?_
          · exact fun _ _ => rfl
          refine (handleAt_exchange_preserve Sound.m_chunkHandle _ _ _ _ _ _ _ ?_).trans ?_
          · exact fun _ _ => rfl
          refine (handleAt_exchange_preserve Sound.m_chunkHandle _ _ _ _ _ _ _ ?_).trans ?_
          · exact fun _ _ => rfl
          rfl
        simp only [hkeep]
        constructor
        · intro hne
          have hb2 : getAt (World.guardedDestroySound mx self w).sounds other = some b := by
            rw [h4 other (Ne.symm hne)]; exact hb
          have := handleAt_exchange_handle Sound.m_chunkHandle
            (fun h s => { s with m_chunkHandle := h }) (fun _ _ => rfl) _ self other c b hc hb2
          exact ⟨this.2 hne, this.1⟩
        · intro heq
          subst heq
          have := handleAt_exchange_handle Sound.m_chunkHandle
            (fun h s => { s with m_chunkHandle := h }) (fun _ _ => rfl) _ self self c c hc hc
          rw [this.1, hc0]

/-- The move assignment of `Music`: the balances are kept; for two distinct live
objects the source ends with `nullptr` and the target with the former handle of the
source; a self-move-assignment ends with `nullptr`. -/
theorem assignMusic_spec [One K] (mx : Mixer σ) (self other : Nat) (w : World K σ) :
    w.sameBalance (w.assignMusic mx self other) ∧
    (∀ a b, getAt w.musics self = some a → getAt w.musics other = some b →
      (self ≠ other →
        handleAt Music.m_musicHandle (w.assignMusic mx self other).musics other = some 0 ∧
        handleAt Music.m_musicHandle (w.assignMusic mx self other).musics self
          = some b.m_musicHandle) ∧
      (self = other →
        handleAt Music.m_musicHandle (w.assignMusic mx self other).musics self = some 0)) := by
  cases ha : getAt w.musics self with
  | none =>
    have e : w.assignMusic mx self other = w := by simp [World.assignMusic, ha]
    rw [e]
    exact ⟨sameBalance_refl w, fun a b h => (by cases h)⟩
  | some a =>
    cases hb : getAt w.musics other with
    | none =>
      have e : w.assignMusic mx self other = w := by simp [World.assignMusic, ha, hb]
      rw [e]
      exact ⟨sameBalance_refl w, fun a b _ h => (by cases h)⟩
    | some b =>
      obtain ⟨h2, -, h3, h4⟩ := guardedDestroyMusic_spec mx self w
      obtain ⟨c, hc, hc0⟩ := h3 a ha
      have e : w.assignMusic mx self other
          = { World.guardedDestroyMusic mx self w with
              musics :=
                exchangeField Music.m_volume (fun v m => { m with m_volume := v }) 1
                  (exchangeField Music.m_musicHandle
                    (fun h m => { m with m_musicHandle := h }) 0
                    (World.guardedDestroyMusic mx self w).musics self other) self other } := by
        simp only [World.assignMusic, ha, hb]
      rw [e]
      refine ⟨sameBalance_trans h2 (sameBalance_musics _ _ ?_), ?_⟩
      · intro h hh
        refine (held_exchange_preserve Music.m_musicHandle h _ _ _ _ _ _ ?_).trans ?_
        · exact fun _ _ => rfl
        exact held_exchange_handle Music.m_musicHandle _ (fun _ _ => rfl) h hh _ _ _ c hc hc0
      · intro a' b' ha' hb'
        cases ha'
        cases hb'
        have hkeep : ∀ j, handleAt Music.m_musicHandle
            (exchangeField Music.m_volume (fun v m => { m with m_volume := v }) 1
              (exchangeField Music.m_musicHandle
                (fun h m => { m with m_musicHandle := h }) 0
                (World.guardedDestroyMusic mx self w).musics self other) self other) j
            = handleAt Music.m_musicHandle
                (exchangeField Music.m_musicHandle (fun h m => { m with m_musicHandle := h }) 0
                  (World.guardedDestroyMusic mx self w).musics self other) j := by
          intro j
          refine (handleAt_exchange_preserve Music.m_musicHandle _ _ _ _ _ _ _ ?_).trans ?_
          · exact fun _ _ => rfl
          rfl
        simp only [hkeep]
        constructor
        · intro hne
          have hb2 : getAt (World.guardedDestroyMusic mx self w).musics other = some b := by
            rw [h4 other (Ne.symm hne)]; exact hb
          have := handleAt_exchange_handle Music.m_musicHandle
            (fun h m => { m with m_musicHandle := h }) (fun _ _ => rfl) _ self other c b hc hb2
          exact ⟨this.2 hne, this.1⟩
        · intro heq
          subst heq
          have := handleAt_exchange_handle Music.m_musicHandle
            (fun h m => { m with m_musicHandle := h }) (fun _ _ => rfl) _ self self c c hc hc
          rw [this.1, hc0]

theorem newSound_balance [Zero K] [One K] (loaded : Nat) (w : World K σ) :
    (∀ h, h ≠ 0 → (w.newSound loaded).chunkBalance h
      = w.chunkBalance h + (if loaded = h then 1 else 0)) ∧
    (∀ h, (w.newSound loaded).musicBalance h = w.musicBalance h) ∧
    (∀ h, (w.newSound loaded).freedChunk h = w.freedChunk h) ∧
    (∀ h, (w.newSound loaded).freedMusic h = w.freedMusic h) := by
  by_cases h0 : loaded = 0
  · have e : w.newSound loaded = w := by simp [World.newSound, Sound.new, h0]
    rw [e]
    refine ⟨fun h hh => ?_, fun _ => rfl, fun _ => rfl, fun _ => rfl⟩
    have : ¬ (loaded = h) := fun e => hh (e ▸ h0)
    simp [this]
  · have e : w.newSound loaded = { w with sounds := w.sounds ++
        [some { m_chunkHandle := loaded, m_channel := -1, m_position := ⟨0, 0, 0⟩,
                m_volume := 1 }] } := by
      simp [World.newSound, Sound.new, h0]
    rw [e]
    refine ⟨fun h _ => ?_, fun _ => rfl, fun _ => rfl, fun _ => rfl⟩
    simp only [World.chunkBalance, World.freedChunk, held_append, Option.map_some',
      Option.some.injEq]
    omega

theorem newMusic_balance [One K] (loaded : Nat) (w : World K σ) :
    (∀ h, h ≠ 0 → (w.newMusic loaded).musicBalance h
      = w.musicBalance h + (if loaded = h then 1 else 0)) ∧
    (∀ h, (w.newMusic loaded).chunkBalance h = w.chunkBalance h) ∧
    (∀ h, (w.newMusic loaded).freedChunk h = w.freedChunk h) ∧
    (∀ h, (w.newMusic loaded).freedMusic h = w.freedMusic h) := by
  by_cases h0 : loaded = 0
  · have e : w.newMusic loaded = w := by simp [World.newMusic, Music.new, h0]
    rw [e]
    refine ⟨fun h hh => ?_, fun _ => rfl, fun _ => rfl, fun _ => rfl⟩
    have : ¬ (loaded = h) := fun e => hh (e ▸ h0)
    simp [this]
  · have e : w.newMusic loaded = { w with musics := w.musics ++
        [some { m_musicHandle := loaded, m_volume := 1 }] } := by
      simp [World.newMusic, Music.new, h0]
    rw [e]
    refine ⟨fun h _ => ?_, fun _ => rfl, fun _ => rfl, fun _ => rfl⟩
    simp only [World.musicBalance, World.freedMusic, held_append, Option.map_some',
      Option.some.injEq]
    omega

/-- One step changes the balance of a non-null handle only by constructing an object
from it, and never frees `nullptr`. -/
theorem step_balance [Zero K] [One K] (mx : Mixer σ) (w : World K σ) (op : Op) :
    (∀ h, h ≠ 0 → (w.step mx op).chunkBalance h
      = w.chunkBalance h + (if op = .newSound h then 1 else 0)) ∧
    (∀ h, h ≠ 0 → (w.step mx op).musicBalance h
      = w.musicBalance h + (if op = .newMusic h then 1 else 0)) ∧
    (w.step mx op).freedChunk 0 = w.freedChunk 0 ∧
    (w.step mx op).freedMusic 0 = w.freedMusic 0 := by
  have key : ∀ v : World K σ, w.sameBalance v →
      (∀ h, h ≠ 0 → v.chunkBalance h = w.chunkBalance h) ∧
      (∀ h, h ≠ 0 → v.musicBalance h = w.musicBalance h) ∧
      v.freedChunk 0 = w.freedChunk 0 ∧ v.freedMusic 0 = w.freedMusic 0 := fun v hv => hv
  cases op with
  | newSound loaded =>
    obtain ⟨h1, h2, h3, h4⟩ := newSound_balance loaded w
    exact ⟨fun h hh => by simpa using h1 h hh, fun h _ => by simpa using h2 h, h3 0, h4 0⟩
  | newMusic loaded =>
    obtain ⟨h1, h2, h3, h4⟩ := newMusic_balance loaded w
    exact ⟨fun h _ => by simpa using h2 h, fun h hh => by simpa using h1 h hh, h3 0, h4 0⟩
  | moveSound other =>
    obtain ⟨h1, h2, h3, h4⟩ := key _ (moveSound_sameBalance mx other w)
    exact ⟨fun h hh => by simpa using h1 h hh, fun h hh => by simpa using h2 h hh, h3, h4⟩
  | assignSound self other =>
    obtain ⟨h1, h2, h3, h4⟩ := key _ (assignSound_spec mx self other w).1
    exact ⟨fun h hh => by simpa using h1 h hh, fun h hh => by simpa using h2 h hh, h3, h4⟩
  | deleteSound self =>
    obtain ⟨h1, h2, h3, h4⟩ := key _ (deleteSound_sameBalance mx self w)
    exact ⟨fun h hh => by simpa using h1 h hh, fun h hh => by simpa using h2 h hh, h3, h4⟩
  | moveMusic other =>
    obtain ⟨h1, h2, h3, h4⟩ := key _ (moveMusic_sameBalance mx other w)
    exact ⟨fun h hh => by simpa using h1 h hh, fun h hh => by simpa using h2 h hh, h3, h4⟩
  | assignMusic self other =>
    obtain ⟨h1, h2, h3, h4⟩ := key _ (assignMusic_spec mx self other w).1
    exact ⟨fun h hh => by simpa using h1 h hh, fun h hh => by simpa using h2 h hh, h3, h4⟩
  | deleteMusic self =>
    obtain ⟨h1, h2, h3, h4⟩ := key _ (deleteMusic_sameBalance mx self w)
    exact ⟨fun h hh => by simpa using h1 h hh, fun h hh => by simpa using h2 h hh, h3, h4⟩

theorem run_balance [Zero K] [One K] (mx : Mixer σ) (ops : List Op) (w : World K σ) :
    (∀ h, h ≠ 0 → (w.run mx ops).chunkBalance h = w.chunkBalance h + ops.count (.newSound h)) ∧
    (∀ h, h ≠ 0 → (w.run mx ops).musicBalance h = w.musicBalance h + ops.count (.newMusic h)) ∧
    (w.run mx ops).freedChunk 0 = w.freedChunk 0 ∧
    (w.run mx ops).freedMusic 0 = w.freedMusic 0 := by
  induction ops generalizing w with
  | nil => simp [World.run]
  | cons op ops ih =>
    obtain ⟨s1, s2, s3, s4⟩ := step_balance mx w op
    obtain ⟨i1, i2, i3, i4⟩ := ih (w.step mx op)
    have e : w.run mx (op :: ops) = (w.step mx op).run mx ops := rfl
    rw [e]
    refine ⟨fun h hh => ?_, fun h hh => ?_, i3.trans s3, i4.trans s4⟩
    · rw [i1 h hh, s1 h hh, List.count_cons]
      simp only [beq_iff_eq]
      omega
    · rw [i2 h hh, s2 h hh, List.count_cons]
      simp only [beq_iff_eq]
      omega

theorem held_allNone {α : Type} (handle : α → Nat) (h : Nat) (objs : List (Option α))
    (hn : ∀ o ∈ objs, o.isNone = true) : held handle h objs = 0 := by
  unfold held handles
  rw [List.count_eq_zero]
  intro hmem
  obtain ⟨o, ho, hoh⟩ := List.mem_map.mp hmem
  have := hn o ho
  cases o with
  | none => cases hoh
  | some a => cases this

/-- C1: for every sequence of constructions, move constructions, move assignments
(self-move-assignment included) and destructions of `Sound` and `Music` objects,
started with no object and no call issued, `nullptr` is never passed to
`Mix_FreeChunk` or `Mix_FreeMusic`; at every moment the objects holding a non-null
handle plus the times it was freed equal the times it was obtained at construction;
so once all objects are destroyed every non-null handle has been freed exactly once
per construction that obtained it. After `a = std::move(b)` on two live objects `a`
and `b`, `b` holds `nullptr` and `a` holds the former handle of `b`; when `a` and `b`
are the same object, it holds `nullptr`. -/
theorem C1_handles_released_once [Zero K] [One K] (mx : Mixer σ) (w₀ : World K σ)
    (ops : List Op) (hs : w₀.sounds = []) (hm : w₀.musics = []) (hc : w₀.calls = []) :
    (MixCall.Mix_FreeChunk 0 ∉ (w₀.run mx ops).calls ∧
      MixCall.Mix_FreeMusic 0 ∉ (w₀.run mx ops).calls) ∧
    (∀ h, h ≠ 0 →
      held Sound.m_chunkHandle h (w₀.run mx ops).sounds + (w₀.run mx ops).freedChunk h
        = ops.count (.newSound h) ∧
      held Music.m_musicHandle h (w₀.run mx ops).musics + (w₀.run mx ops).freedMusic h
        = ops.count (.newMusic h)) ∧
    ((w₀.run mx ops).allDestroyed → ∀ h, h ≠ 0 →
      (w₀.run mx ops).freedChunk h = ops.count (.newSound h) ∧
      (w₀.run mx ops).freedMusic h = ops.count (.newMusic h)) ∧
    (∀ (w : World K σ) (a b : Nat) (sa sb : Sound K),
      getAt w.sounds a = some sa → getAt w.sounds b = some sb →
      (a ≠ b →
        handleAt Sound.m_chunkHandle (w.assignSound mx a b).sounds b = some 0 ∧
        handleAt Sound.m_chunkHandle (w.assignSound mx a b).sounds a = some sb.m_chunkHandle) ∧
      (a = b → handleAt Sound.m_chunkHandle (w.assignSound mx a b).sounds a = some 0)) ∧
    (∀ (w : World K σ) (a b : Nat) (ma mb : Music K),
      getAt w.musics a = some ma → getAt w.musics b = some mb →
      (a ≠ b →
        handleAt Music.m_musicHandle (w.assignMusic mx a b).musics b = some 0 ∧
        handleAt Music.m_musicHandle (w.assignMusic mx a b).musics a = some mb.m_musicHandle) ∧
      (a = b → handleAt Music.m_musicHandle (w.assignMusic mx a b).musics a = some 0)) := by
  obtain ⟨r1, r2, r3, r4⟩ := run_balance mx ops w₀
  have c0 : ∀ h, w₀.chunkBalance h = 0 := fun h => by
    simp [World.chunkBalance, World.freedChunk, held, handles, hs, hc]
  have m0 : ∀ h, w₀.musicBalance h = 0 := fun h => by
    simp [World.musicBalance, World.freedMusic, held, handles, hm, hc]
  have bal : ∀ h, h ≠ 0 →
      held Sound.m_chunkHandle h (w₀.run mx ops).sounds + (w₀.run mx ops).freedChunk h
        = ops.count (.newSound h) ∧
      held Music.m_musicHandle h (w₀.run mx ops).musics + (w₀.run mx ops).freedMusic h
        = ops.count (.newMusic h) := by
    intro h hh
    have h1 := r1 h hh
    have h2 := r2 h hh
    rw [c0] at h1
    rw [m0] at h2
    simp only [World.chunkBalance, World.musicBalance] at h1 h2
    exact ⟨by omega, by omega⟩
  refine ⟨⟨?_, ?_⟩, bal, ?_, ?_, ?_⟩
  · have : (w₀.run mx ops).freedChunk 0 = 0 := by
      rw [r3]; simp [World.freedChunk, hc]
    exact List.count_eq_zero.mp this
  · have : (w₀.run mx ops).freedMusic 0 = 0 := by
      rw [r4]; simp [World.freedMusic, hc]
    exact List.count_eq_zero.mp this
  · intro hd h hh
    obtain ⟨b1, b2⟩ := bal h hh
    rw [held_allNone _ _ _ hd.1] at b1
    rw [held_allNone _ _ _ hd.2] at b2
    exact ⟨by omega, by omega⟩
  · intro w a b sa sb ha hb
    exact (assignSound_spec mx a b w).2 sa sb ha hb
  · intro w a b ma mb ha hb
    exact (assignMusic_spec mx a b w).2 ma mb ha hb

theorem C1_handles_released_once_witness :
    (World.initial () : World ℚ Unit).sounds = [] ∧
    (World.initial () : World ℚ Unit).musics = [] ∧
    (World.initial () : World ℚ Unit).calls = [] ∧
    ((World.initial () : World ℚ Unit).run Mixer.alwaysOne Op.sampleProgram).allDestroyed ∧
    ((World.initial () : World ℚ Unit).run Mixer.alwaysOne Op.sampleProgram).freedChunk 2
      = Op.sampleProgram.count (.newSound 2) ∧
    Op.sampleProgram.count (.newSound 2) = 1 :=
  have hd : ((World.initial () : World ℚ Unit).run Mixer.alwaysOne
      Op.sampleProgram).allDestroyed := by
    simp [World.allDestroyed, World.run, World.step, Op.sampleProgram, World.initial,
      World.newSound, World.newMusic, World.assignSound, World.assignMusic, World.moveSound,
      World.moveMusic, World.deleteSound, World.deleteMusic, World.guardedDestroySound,
      World.guardedDestroyMusic, Sound.new, Music.new, Sound.Destroy, Music.Destroy,
      Music.Stop, Music.IsPlaying, Music.IsPaused, Music.IsMusicPlaying, Music.IsMusicPaused,
      Music.StopAllMusic, Mixer.alwaysOne, World.issue, getAt, modifyAt, exchangeField]
  ⟨rfl, rfl, rfl, hd,
    ((C1_handles_released_once Mixer.alwaysOne (World.initial () : World ℚ Unit)
      Op.sampleProgram rfl rfl rfl).2.2.1 hd 2 (by decide)).1, by decide⟩

end Lifetimes

end Astral
